import Mathlib

/-!
Verification of the resume-relevance evaluation pipeline: a shallow
embedding of the JD parser, skill extractor, semantic matcher and scoring
engine, with theorems settling the specified properties.  Python floats are
modelled as exact rationals, Python lists as Lean lists, `None` as `Option`,
and the external fuzzy/embedding backends as oracle parameters.
-/

set_option maxRecDepth 100000

/-! ## Python string primitives -/

/-- Python-style character-list equality on the leading segment:
`headMatch n h` is true when `n` occurs at the start of `h`. -/
def headMatch : List Char → List Char → Bool
  | [], _ => true
  | _ :: _, [] => false
  | a :: as, b :: bs => if a = b then headMatch as bs else false

/-- `hasSub n h` models Python substring membership `n in h` on char lists. -/
def hasSub (needle : List Char) : List Char → Bool
  | [] => needle.isEmpty
  | c :: t => headMatch needle (c :: t) || hasSub needle t

/-- Python `needle in hay` on strings (case-sensitive substring test). -/
def pyContains (hay needle : String) : Bool :=
  hasSub needle.data hay.data

/-- Auxiliary recursion for `countSub` with a non-empty pattern; the fuel
argument (initially the text length) makes the recursion structural, and is
never exhausted because every step shortens the text. -/
def countSubAux (n : Char) (ns : List Char) : ℕ → List Char → ℕ
  | 0, _ => 0
  | _, [] => 0
  | fuel + 1, c :: t =>
    if headMatch (n :: ns) (c :: t) then
      1 + countSubAux n ns fuel (t.drop ns.length)
    else countSubAux n ns fuel t

/-- Python `str.count`: non-overlapping occurrences, scanning left to right.
An empty pattern counts `len + 1` occurrences, as in Python. -/
def countSub (hay : List Char) : List Char → Nat
  | [] => hay.length + 1
  | n :: ns => countSubAux n ns hay.length hay

/-- Python `str.find` returning the first index of the pattern, `none` when
absent. -/
def findSub (needle : List Char) : List Char → Option Nat
  | [] => if needle.isEmpty then some 0 else none
  | c :: t =>
    if headMatch needle (c :: t) then some 0
    else (findSub needle t).map (· + 1)

/-- Python truthiness of an optional string (`None` and `""` are falsy). -/
def pyTruthy : Option String → Bool
  | none => false
  | some s => s ≠ ""

/-- Python `str.lower` (ASCII); written on the character list so that it
reduces inside the kernel. -/
def pyLower (s : String) : String := String.mk (s.data.map Char.toLower)

/-- Python `str.strip`. -/
def pyStrip (s : String) : String :=
  String.mk (((s.data.dropWhile Char.isWhitespace).reverse.dropWhile
    Char.isWhitespace).reverse)

/-- Python `s[:n]` on strings. -/
def pyTake (s : String) (n : ℕ) : String := String.mk (s.data.take n)

/-- Python `sep.join(parts)`. -/
def pyJoin (sep : String) (parts : List String) : String :=
  String.mk (((parts.map String.data).intersperse sep.data).flatten)

theorem dropWhileLenLe (p : Char → Bool) (l : List Char) :
    (l.dropWhile p).length ≤ l.length := by
  induction l with
  | nil => simp
  | cons a as ih =>
    simp only [List.dropWhile]
    cases p a
    · simp
    · simp only [List.length_cons]
      omega

/-- Fuel-driven recursion for `wordChunks`; the fuel (initially the text
length) is never exhausted because every step shortens the text. -/
def wordChunksF : ℕ → List Char → List (List Char)
  | 0, _ => []
  | _, [] => []
  | fuel + 1, c :: t =>
    if c.isWhitespace then wordChunksF fuel t
    else ((c :: t).takeWhile (fun x => !x.isWhitespace)) ::
      wordChunksF fuel ((c :: t).dropWhile (fun x => !x.isWhitespace))

/-- The maximal runs of non-whitespace characters, in order. -/
def wordChunks (l : List Char) : List (List Char) :=
  wordChunksF l.length l

/-- Python `str.split()` with no arguments: split on whitespace runs and drop
empty pieces. -/
def pyWords (s : String) : List String :=
  (wordChunks s.data).map String.mk

theorem headMatch_self (l : List Char) : headMatch l l = true := by
  induction l with
  | nil => rfl
  | cons a as ih => simp [headMatch, ih]

theorem headMatch_trans : ∀ {a b c : List Char},
    headMatch a b = true → headMatch b c = true → headMatch a c = true := by
  intro a b c hab hbc
  induction c generalizing a b with
  | nil =>
    cases b with
    | nil => cases a with
      | nil => rfl
      | cons z zs => simp [headMatch] at hab
    | cons y ys => simp [headMatch] at hbc
  | cons x xs ih =>
    cases b with
    | nil =>
      cases a with
      | nil => rfl
      | cons z zs => simp [headMatch] at hab
    | cons y ys =>
      cases a with
      | nil => rfl
      | cons z zs =>
        simp only [headMatch] at hab hbc ⊢
        by_cases hzy : z = y
        · subst hzy
          simp only [if_pos rfl] at hab
          by_cases hyx : z = x
          · subst hyx
            simp only [if_pos rfl] at hbc ⊢
            exact ih hab hbc
          · simp [if_neg hyx] at hbc
        · simp [if_neg hzy] at hab

theorem hasSub_self (l : List Char) : hasSub l l = true := by
  cases l with
  | nil => rfl
  | cons c t => simp [hasSub, headMatch_self]

/-- If `n` occurs in `h` and `n'` is a leading segment of `n`, then `n'`
occurs in `h` as well. -/
theorem hasSub_of_headMatch {n n' : List Char} (hp : headMatch n' n = true) :
    ∀ {h : List Char}, hasSub n h = true → hasSub n' h = true := by
  intro h
  induction h with
  | nil =>
    intro hh
    simp only [hasSub, List.isEmpty_iff] at hh ⊢
    subst hh
    cases n' with
    | nil => rfl
    | cons a as => simp [headMatch] at hp
  | cons c t ih =>
    intro hh
    simp only [hasSub, Bool.or_eq_true] at hh ⊢
    rcases hh with hh | hh
    · exact Or.inl (headMatch_trans hp hh)
    · exact Or.inr (ih hh)

/-- Python `min(a, b)` on rationals, kernel-computable. -/
def pyMin (a b : ℚ) : ℚ := if a ≤ b then a else b

/-- Python `max(a, b)` on rationals, kernel-computable. -/
def pyMax (a b : ℚ) : ℚ := if b ≤ a then a else b

theorem pyMin_eq_min (a b : ℚ) : pyMin a b = min a b := by
  unfold pyMin
  rw [min_def]

theorem pyMax_eq_max (a b : ℚ) : pyMax a b = max a b := by
  unfold pyMax
  rw [max_def]
  rcases le_total a b with h | h
  · rcases eq_or_lt_of_le h with rfl | hlt
    · simp
    · rw [if_pos h, if_neg (not_le.mpr hlt)]
  · rw [if_pos h]
    rcases eq_or_lt_of_le h with rfl | hlt
    · simp
    · rw [if_neg (not_le.mpr hlt)]

/-! ## Python banker's rounding (modelled exactly on rationals) -/

/-- Python `round(q)`: round half to even. -/
def pyRound (q : ℚ) : ℤ :=
  if q - ⌊q⌋ < 1/2 then ⌊q⌋
  else if 1/2 < q - ⌊q⌋ then ⌊q⌋ + 1
  else if ⌊q⌋ % 2 = 0 then ⌊q⌋ else ⌊q⌋ + 1

/-- Python `round(q, 1)`. -/
def round1 (q : ℚ) : ℚ :=
  (pyRound (10 * q) : ℚ) / 10

theorem pyRound_le_add_one (q : ℚ) : pyRound q ≤ ⌊q⌋ + 1 := by
  unfold pyRound
  split
  · omega
  · split
    · omega
    · split <;> omega

theorem floor_le_pyRound (q : ℚ) : ⌊q⌋ ≤ pyRound q := by
  unfold pyRound
  split
  · omega
  · split
    · omega
    · split <;> omega

theorem pyRound_ge {n : ℤ} {q : ℚ} (h : (n : ℚ) ≤ q) : n ≤ pyRound q :=
  le_trans (Int.le_floor.mpr h) (floor_le_pyRound q)

theorem pyRound_le {n : ℤ} {q : ℚ} (h : q ≤ (n : ℚ)) : pyRound q ≤ n := by
  unfold pyRound
  have hf : ⌊q⌋ ≤ n := by
    have := Int.floor_le_floor h
    simpa using this
  split
  · exact hf
  · rename_i h1
    push_neg at h1
    have hq : (⌊q⌋ : ℚ) + 1/2 ≤ q := by linarith
    have hn : (⌊q⌋ : ℚ) + 1/2 ≤ (n : ℚ) := le_trans hq h
    have hlt : ⌊q⌋ < n := by
      by_contra hc
      push_neg at hc
      have : (n : ℚ) ≤ (⌊q⌋ : ℚ) := by exact_mod_cast hc
      linarith
    split
    · omega
    · split <;> omega

theorem round1_nonneg {q : ℚ} (h : 0 ≤ q) : 0 ≤ round1 q := by
  unfold round1
  have : (0 : ℤ) ≤ pyRound (10 * q) := pyRound_ge (by push_cast; linarith)
  positivity

theorem round1_le_of_le {q : ℚ} {n : ℤ} (h : q ≤ (n : ℚ)) :
    round1 q ≤ 10 * (n : ℚ) / 10 := by
  unfold round1
  have hb : pyRound (10 * q) ≤ 10 * n := pyRound_le (by push_cast; linarith)
  have : (pyRound (10 * q) : ℚ) ≤ ((10 * n : ℤ) : ℚ) := by exact_mod_cast hb
  push_cast at this ⊢
  linarith

theorem round1_le_hundred {q : ℚ} (h : q ≤ 100) : round1 q ≤ 100 := by
  have := round1_le_of_le (n := 100) (by exact_mod_cast h)
  norm_num at this
  exact this

theorem round1_bounds {q : ℚ} (h0 : 0 ≤ q) (h1 : q ≤ 100) :
    0 ≤ round1 q ∧ round1 q ≤ 100 :=
  ⟨round1_nonneg h0, round1_le_hundred h1⟩

/-! ## Data model (from the source dataclasses) -/

/-- `ContactInfo` from `resume_parser.py`. -/
structure ContactInfo where
  name : Option String := none
  email : Option String := none
  phone : Option String := none
  linkedin : Option String := none
  github : Option String := none
  portfolio : Option String := none
  location : Option String := none
deriving Repr, DecidableEq

/-- `Education` from `resume_parser.py`; `None` list defaults are modelled
as empty lists (every consumer treats them through `or []`/truthiness). -/
structure Education where
  degree : Option String := none
  institution : Option String := none
  location : Option String := none
  graduation_year : Option ℤ := none
  gpa : Option ℚ := none
  relevant_courses : List String := []
  honors : List String := []
deriving Repr, DecidableEq

/-- `WorkExperience` from `resume_parser.py`. -/
structure WorkExperience where
  title : String
  company : String
  location : Option String := none
  start_date : Option String := none
  end_date : Option String := none
  duration_months : Option ℤ := none
  description : List String := []
  technologies : List String := []
  achievements : List String := []
deriving Repr, DecidableEq

/-- `Project` from `resume_parser.py`. -/
structure Project where
  title : String
  description : String
  technologies : List String := []
  url : Option String := none
  start_date : Option String := none
  end_date : Option String := none
deriving Repr, DecidableEq

/-- `ParsedResume` from `resume_parser.py`. -/
structure ParsedResume where
  contact_info : ContactInfo
  summary : Option String := none
  skills : List String := []
  education : List Education := []
  work_experience : List WorkExperience := []
  projects : List Project := []
  certifications : List String := []
  languages : List String := []
  awards : List String := []
  total_experience_years : Option ℚ := none
  raw_text : String := ""
  parsing_confidence : ℚ := 0
deriving Repr, DecidableEq

/-- `ParsedJobDescription` from `jd_parser.py`. -/
structure ParsedJobDescription where
  title : String
  company : String
  location : Option String := none
  department : Option String := none
  job_type : Option String := none
  experience_required : Option String := none
  salary_range : Option String := none
  summary : Option String := none
  responsibilities : List String := []
  requirements : List String := []
  preferred_qualifications : List String := []
  required_skills : List String := []
  preferred_skills : List String := []
  required_experience_years : Option ℤ := none
  education_requirements : List String := []
  benefits : List String := []
  remote_allowed : Bool := false
  urgency_level : String := "medium"
  raw_content : String := ""
deriving Repr, DecidableEq

/-- `ExtractedSkill` from `skill_extractor.py`. -/
structure ExtractedSkill where
  name : String
  category : String
  confidence : ℚ
  context : String
  aliases : Option (List String) := none
  proficiency_level : Option String := none
deriving Repr, DecidableEq

/-- `SkillProfile` from `skill_extractor.py`. -/
structure SkillProfile where
  technical_skills : List ExtractedSkill
  soft_skills : List ExtractedSkill
  domain_expertise : List ExtractedSkill
  tools_platforms : List ExtractedSkill
  certifications : List String
  skill_categories : List (String × List String)
  total_skills_count : ℕ
  skill_diversity_score : ℚ
deriving Repr, DecidableEq

/-- `SkillMatch` from `semantic_matcher.py`. -/
structure SkillMatch where
  skill_name : String
  resume_skill : Option String
  jd_skill : String
  match_type : String
  confidence : ℚ
  semantic_similarity : Option ℚ := none
deriving Repr, DecidableEq

/-- `SemanticMatchResult` from `semantic_matcher.py`. -/
structure SemanticMatchResult where
  overall_similarity : ℚ
  skill_matches : List SkillMatch
  missing_skills : List String
  additional_skills : List String
  category_similarities : List (String × ℚ)
  embedding_similarity : ℚ
  text_similarity : ℚ
deriving Repr, DecidableEq

/-- `ScoringWeights` from `scoring_engine.py` (defaults included). -/
structure ScoringWeights where
  hard_skills : ℚ := 35/100
  soft_skills : ℚ := 15/100
  experience : ℚ := 25/100
  education : ℚ := 15/100
  semantic_match : ℚ := 10/100
deriving Repr, DecidableEq

/-- `DetailedScores` from `scoring_engine.py`. -/
structure DetailedScores where
  hard_skills_score : ℚ
  soft_skills_score : ℚ
  experience_score : ℚ
  education_score : ℚ
  semantic_match_score : ℚ
  technical_skills_score : ℚ
  domain_expertise_score : ℚ
  tools_platforms_score : ℚ
  years_experience_score : ℚ
  experience_relevance_score : ℚ
  education_level_score : ℚ
  education_relevance_score : ℚ
  skills_matched_count : ℕ
  skills_required_count : ℕ
  skills_missing_count : ℕ
  skills_additional_count : ℕ
  parsing_confidence : ℚ
  matching_confidence : ℚ
  overall_confidence : ℚ
deriving Repr, DecidableEq

/-- `FinalScore` from `scoring_engine.py`. -/
structure FinalScore where
  overall_score : ℚ
  detailed_scores : DetailedScores
  suitability : String
  percentile_rank : Option ℚ := none
  confidence_level : String := "medium"
deriving Repr, DecidableEq

/-! ## Job description parser: urgency (`jd_parser.py`, `_determine_urgency`) -/

/-- `JobDescriptionParser._determine_urgency`: keyword containment on the
lowercased text, checked tier by tier. -/
def determineUrgency (text : String) : String :=
  let textLower := pyLower text
  let urgentKeywords := ["urgent", "immediate", "asap", "immediately", "critical"]
  let highKeywords := ["fast-paced", "quickly", "soon", "rapid"]
  if urgentKeywords.any (fun k => pyContains textLower k) then "high"
  else if highKeywords.any (fun k => pyContains textLower k) then "medium"
  else "low"

/-- Urgency following the claim text, amended only by adding `soon` to the
medium tier (high tier unchanged: an occurrence of `immediately` always
contains `immediate`). -/
def specUrgency (text : String) : String :=
  if ["urgent", "immediate", "asap", "critical"].any
      (fun k => pyContains (pyLower text) k) then "high"
  else if ["fast-paced", "quickly", "soon", "rapid"].any
      (fun k => pyContains (pyLower text) k) then "medium"
  else "low"

/-- C9 (counterexample): the text `"soon"` contains none of the seven phrases
named by the claim, yet the parser reports `"medium"`, not `"low"`. -/
theorem determineUrgency_soon_counterexample :
    (["urgent", "immediate", "asap", "critical", "fast-paced", "quickly",
      "rapid"].all (fun k => !(pyContains (pyLower "soon") k))) = true ∧
    determineUrgency "soon" = "medium" := by
  decide

/-- C9 (amended): urgency is `high` iff the lowercased text contains one of
`urgent`, `immediate`, `asap`, `critical`; otherwise `medium` iff it contains
one of `fast-paced`, `quickly`, `soon`, `rapid`; otherwise `low`. -/
theorem determineUrgency_matches_spec (text : String) :
    determineUrgency text = specUrgency text := by
  have himm : pyContains (pyLower text) "immediately" = true →
      pyContains (pyLower text) "immediate" = true := by
    intro h
    exact hasSub_of_headMatch (by decide) h
  have hcond :
      (["urgent", "immediate", "asap", "immediately", "critical"].any
        (fun k => pyContains (pyLower text) k)) =
      (["urgent", "immediate", "asap", "critical"].any
        (fun k => pyContains (pyLower text) k)) := by
    simp only [List.any_cons, List.any_nil, Bool.or_false]
    cases him2 : pyContains (pyLower text) "immediately" with
    | false => simp [him2]
    | true =>
      have := himm him2
      simp [him2, this]
  simp only [determineUrgency, specUrgency]
  rw [hcond]

/-! ## Skill extractor (`skill_extractor.py`) -/

/-- Python `dict` assignment `d[k] = v` on an association list: replaces the
value in place when the key exists, appends otherwise. -/
def upsert : List (String × String × String) → String → (String × String) →
    List (String × String × String)
  | [], k, v => [(k, v)]
  | (k', v') :: t, k, v =>
    if k' = k then (k, v) :: t else (k', v') :: upsert t k v

/-- `AdvancedSkillExtractor._load_skill_database`: the full skill database,
in source order: category → canonical name → aliases. -/
def skillDatabase : List (String × List (String × List String)) := [
 ("programming_languages", [
   ("python", ["python", "py", "python3"]),
   ("javascript", ["javascript", "js", "ecmascript", "es6", "es2015"]),
   ("java", ["java", "jvm"]),
   ("typescript", ["typescript", "ts"]),
   ("c++", ["c++", "cpp", "c plus plus"]),
   ("c#", ["c#", "csharp", "c sharp"]),
   ("php", ["php", "php7", "php8"]),
   ("ruby", ["ruby", "rb"]),
   ("go", ["go", "golang"]),
   ("rust", ["rust", "rust-lang"]),
   ("kotlin", ["kotlin", "kt"]),
   ("swift", ["swift", "swift5"]),
   ("scala", ["scala"]),
   ("r", ["r programming", "r language"]),
   ("matlab", ["matlab"]),
   ("perl", ["perl"]),
   ("bash", ["bash", "shell scripting", "bash scripting"]),
   ("powershell", ["powershell", "ps1"])]),
 ("web_technologies", [
   ("react", ["react", "reactjs", "react.js"]),
   ("angular", ["angular", "angularjs", "angular2+"]),
   ("vue", ["vue", "vue.js", "vuejs"]),
   ("html", ["html", "html5"]),
   ("css", ["css", "css3", "cascading style sheets"]),
   ("sass", ["sass", "scss"]),
   ("less", ["less css"]),
   ("bootstrap", ["bootstrap", "bootstrap4", "bootstrap5"]),
   ("tailwind", ["tailwind", "tailwindcss"]),
   ("jquery", ["jquery", "jquery ui"]),
   ("node.js", ["node.js", "nodejs", "node js"]),
   ("express", ["express", "express.js", "expressjs"]),
   ("django", ["django", "django rest framework"]),
   ("flask", ["flask", "flask-restful"]),
   ("spring", ["spring", "spring boot", "spring framework"]),
   ("laravel", ["laravel", "laravel framework"]),
   ("rails", ["ruby on rails", "rails", "ror"])]),
 ("databases", [
   ("mysql", ["mysql", "my sql"]),
   ("postgresql", ["postgresql", "postgres", "psql"]),
   ("mongodb", ["mongodb", "mongo"]),
   ("redis", ["redis"]),
   ("elasticsearch", ["elasticsearch", "elastic search", "elk stack"]),
   ("oracle", ["oracle database", "oracle db"]),
   ("sqlite", ["sqlite", "sqlite3"]),
   ("cassandra", ["cassandra", "apache cassandra"]),
   ("dynamodb", ["dynamodb", "dynamo db"]),
   ("neo4j", ["neo4j", "graph database"]),
   ("influxdb", ["influxdb", "time series database"])]),
 ("cloud_platforms", [
   ("aws", ["aws", "amazon web services", "ec2", "s3", "lambda", "rds"]),
   ("azure", ["azure", "microsoft azure"]),
   ("gcp", ["gcp", "google cloud platform", "google cloud"]),
   ("kubernetes", ["kubernetes", "k8s"]),
   ("docker", ["docker", "containerization"]),
   ("terraform", ["terraform", "infrastructure as code"]),
   ("ansible", ["ansible", "configuration management"]),
   ("jenkins", ["jenkins", "ci/cd"]),
   ("gitlab", ["gitlab", "gitlab ci"]),
   ("circleci", ["circleci", "circle ci"])]),
 ("data_science", [
   ("pandas", ["pandas", "pd"]),
   ("numpy", ["numpy", "np"]),
   ("scikit-learn", ["scikit-learn", "sklearn", "sci-kit learn"]),
   ("tensorflow", ["tensorflow", "tf"]),
   ("pytorch", ["pytorch", "torch"]),
   ("keras", ["keras"]),
   ("matplotlib", ["matplotlib", "pyplot"]),
   ("seaborn", ["seaborn", "sns"]),
   ("plotly", ["plotly", "plotly dash"]),
   ("jupyter", ["jupyter", "jupyter notebook", "ipython"]),
   ("apache spark", ["spark", "apache spark", "pyspark"]),
   ("hadoop", ["hadoop", "hdfs"]),
   ("tableau", ["tableau"]),
   ("power bi", ["power bi", "powerbi"]),
   ("r shiny", ["shiny", "r shiny"])]),
 ("mobile_development", [
   ("ios", ["ios development", "ios", "iphone development"]),
   ("android", ["android development", "android"]),
   ("react native", ["react native", "react-native"]),
   ("flutter", ["flutter", "dart"]),
   ("xamarin", ["xamarin"]),
   ("cordova", ["cordova", "phonegap"]),
   ("ionic", ["ionic framework", "ionic"])]),
 ("devops_tools", [
   ("git", ["git", "version control", "github", "gitlab"]),
   ("svn", ["svn", "subversion"]),
   ("maven", ["maven", "apache maven"]),
   ("gradle", ["gradle"]),
   ("webpack", ["webpack", "module bundler"]),
   ("npm", ["npm", "node package manager"]),
   ("yarn", ["yarn package manager", "yarn"]),
   ("pip", ["pip", "python package installer"])]),
 ("soft_skills", [
   ("leadership", ["leadership", "team leadership", "leading teams"]),
   ("communication", ["communication", "public speaking", "presentation"]),
   ("problem solving", ["problem solving", "analytical thinking", "troubleshooting"]),
   ("project management", ["project management", "agile", "scrum", "kanban"]),
   ("teamwork", ["teamwork", "collaboration", "cross-functional teams"]),
   ("adaptability", ["adaptability", "flexibility", "learning agility"]),
   ("time management", ["time management", "organization", "prioritization"]),
   ("creativity", ["creativity", "innovation", "creative thinking"]),
   ("critical thinking", ["critical thinking", "analysis", "evaluation"]),
   ("mentoring", ["mentoring", "coaching", "training others"])])]

/-- The reverse lookup built by `_load_skill_database`: for every category and
skill, write `skill.lower() → (skill, category)` and then every
`alias.lower() → (skill, category)`, with Python-dict overwrite semantics. -/
def skillLookup : List (String × String × String) :=
  skillDatabase.foldl (fun acc cat =>
    cat.2.foldl (fun acc2 sk =>
      sk.2.foldl (fun a al => upsert a (pyLower al) (sk.1, cat.1))
        (upsert acc2 (pyLower sk.1) (sk.1, cat.1))) acc) []

/-- Reading `self.skill_lookup[k]`. -/
def lookupGet (k : String) : Option (String × String) :=
  (skillLookup.find? (fun e => e.1 = k)).map (·.2)

/-- `AdvancedSkillExtractor._extract_context` with the default position:
locate the skill in the lowercased text and return the surrounding
50-character window of the original text, stripped. -/
def extractContext (text skill : String) : String :=
  match findSub (pyLower skill).data (pyLower text).data with
  | none => ""
  | some p =>
    let start := p - 50
    let stop := min text.data.length (p + skill.data.length + 50)
    pyStrip (String.mk ((text.data.drop start).take (stop - start)))

/-- The slice `text[text.find(sec) : text.find(sec) + 200]`. -/
def textWindow (text sec : String) : String :=
  match findSub sec.data text.data with
  | some i => String.mk ((text.data.drop i).take 200)
  | none => ""

/-- `AdvancedSkillExtractor._calculate_dictionary_confidence`: base 0.8,
plus `min(0.1 * (count - 1), 0.2)` when the term occurs more than once, plus
0.1 when the term occurs in the 200-character window at the first occurrence
of a skills-section keyword, capped at 1.0. -/
def calcDictionaryConfidence (skillTerm text : String) : ℚ :=
  let baseConfidence : ℚ := 8/10
  let count := countSub text.data (pyLower skillTerm).data
  let withCount :=
    if 1 < count then
      baseConfidence + pyMin ((1/10) * ((count : ℚ) - 1)) (2/10)
    else baseConfidence
  let withSection :=
    if (["skills", "technologies", "experience", "projects"].any
        (fun sec => pyContains text sec &&
          pyContains (textWindow text sec) skillTerm)) then
      withCount + 1/10
    else withCount
  pyMin withSection 1

/-- `AdvancedSkillExtractor._extract_skills_dictionary`: walk the reverse
lookup and emit an `ExtractedSkill` for every term occurring in the
lowercased text. -/
def extractSkillsDictionary (text : String) : List ExtractedSkill :=
  let textLower := pyLower text
  skillLookup.filterMap (fun e =>
    if pyContains textLower e.1 then
      some { name := e.2.1, category := e.2.2,
             confidence := calcDictionaryConfidence e.1 textLower,
             context := extractContext text e.1 }
    else none)

/-- `AdvancedSkillExtractor._deduplicate_skills` inner dict assignment. -/
def dedupUpsert : List ((String × String) × ExtractedSkill) →
    (String × String) → ExtractedSkill →
    List ((String × String) × ExtractedSkill)
  | [], k, sk => [(k, sk)]
  | (k', s') :: t, k, sk =>
    if k' = k then (k', sk) :: t else (k', s') :: dedupUpsert t k sk

/-- One iteration of `_deduplicate_skills`: keep the incoming skill when its
`(name.lower(), category)` key is new or its confidence is strictly higher. -/
def dedupStep (d : List ((String × String) × ExtractedSkill))
    (sk : ExtractedSkill) : List ((String × String) × ExtractedSkill) :=
  let key := (pyLower sk.name, sk.category)
  match d.find? (fun e => e.1 = key) with
  | none => dedupUpsert d key sk
  | some e => if e.2.confidence < sk.confidence then dedupUpsert d key sk else d

/-- `AdvancedSkillExtractor._deduplicate_skills`. -/
def deduplicateSkills (skills : List ExtractedSkill) : List ExtractedSkill :=
  (skills.foldl dedupStep []).map (·.2)

/-- The buckets used by `_categorize_skills`. -/
inductive SkillBucket where
  | technical
  | soft
  | domain
  | tools
deriving DecidableEq, Repr

/-- The `if/elif/else` chain of `_categorize_skills`. -/
def bucketOf (category : String) : SkillBucket :=
  if category = "soft_skills" then .soft
  else if category = "cloud_platforms" ∨ category = "devops_tools" then .tools
  else if category = "data_science" ∨ category = "mobile_development" then .domain
  else .technical

/-- The four lists built by `_categorize_skills`. -/
structure CategorizedSkills where
  technical_skills : List ExtractedSkill
  soft_skills : List ExtractedSkill
  domain_expertise : List ExtractedSkill
  tools_platforms : List ExtractedSkill

/-- `AdvancedSkillExtractor._categorize_skills`. -/
def categorizeSkills (skills : List ExtractedSkill) : CategorizedSkills where
  technical_skills := skills.filter (fun sk => bucketOf sk.category = .technical)
  soft_skills := skills.filter (fun sk => bucketOf sk.category = .soft)
  domain_expertise := skills.filter (fun sk => bucketOf sk.category = .domain)
  tools_platforms := skills.filter (fun sk => bucketOf sk.category = .tools)

/-- `AdvancedSkillExtractor._build_skill_profile`; the regex-driven
certification extraction is an oracle parameter `certs`. -/
def buildSkillProfile (certs : String → List String)
    (categorized : CategorizedSkills) (originalText : String) : SkillProfile :=
  let skillCategories := [
    ("technical_skills", categorized.technical_skills.map (·.name)),
    ("soft_skills", categorized.soft_skills.map (·.name)),
    ("domain_expertise", categorized.domain_expertise.map (·.name)),
    ("tools_platforms", categorized.tools_platforms.map (·.name))]
  let totalCategories := (skillCategories.filter (fun c => c.2 ≠ [])).length
  let diversityScore := min ((totalCategories : ℚ) / 4) 1
  { technical_skills := categorized.technical_skills
    soft_skills := categorized.soft_skills
    domain_expertise := categorized.domain_expertise
    tools_platforms := categorized.tools_platforms
    certifications := certs originalText
    skill_categories := skillCategories
    total_skills_count :=
      categorized.technical_skills.length + categorized.soft_skills.length +
      categorized.domain_expertise.length + categorized.tools_platforms.length
    skill_diversity_score := diversityScore }

/-- `AdvancedSkillExtractor.extract_skills`: the four extraction strategies
(dictionary, regex patterns, optional NLP, contextual phrases, applied to the
preprocessed text) are abstracted as the oracle `strategies`; the pipeline
tail — deduplicate, categorize, build — is embedded exactly. -/
def extractSkills (strategies : String → List ExtractedSkill)
    (certs : String → List String) (text : String) : SkillProfile :=
  buildSkillProfile certs (categorizeSkills (deduplicateSkills (strategies text))) text

theorem mem_skillLookup_of_lookupGet {k : String} {v : String × String}
    (h : lookupGet k = some v) : (k, v) ∈ skillLookup := by
  unfold lookupGet at h
  cases hf : skillLookup.find? (fun e => e.1 = k) with
  | none => rw [hf] at h; simp at h
  | some e =>
    rw [hf] at h
    have h2 : e.2 = v := by simpa using h
    have h1 : e.1 = k := by simpa using List.find?_some hf
    have he : e = (k, v) := Prod.ext h1 h2
    rw [← he]
    exact List.mem_of_find?_eq_some hf

theorem extractSkillsDictionary_mem {text t : String} {v : String × String}
    (hmem : (t, v) ∈ skillLookup)
    (hsub : pyContains (pyLower text) t = true) :
    ({ name := v.1, category := v.2,
       confidence := calcDictionaryConfidence t (pyLower text),
       context := extractContext text t } : ExtractedSkill) ∈
      extractSkillsDictionary text := by
  simp only [extractSkillsDictionary]
  apply List.mem_filterMap.mpr
  exact ⟨(t, v), hmem, by simp [hsub]⟩

set_option maxHeartbeats 8000000 in
/-- C7 (amended): every canonical skill name and every listed alias of the
skill dictionary, with the single exception of the text `gitlab` (whose
reverse-lookup entry is overwritten by the later alias list of `git`), is
mapped by the reverse lookup to its listing skill and category; and for
every term whose reverse-lookup entry records a skill and a category,
dictionary extraction on a text consisting of just that term yields an
`ExtractedSkill` with that skill name and that category. -/
theorem dictionary_closure_amended :
    ((skillDatabase.all (fun c => c.2.all (fun sk =>
      (sk.1 :: sk.2).all (fun t =>
        pyLower t = "gitlab" ||
          lookupGet (pyLower t) = some (sk.1, c.1))))) = true) ∧
    (∀ t skillName cat, lookupGet (pyLower t) = some (skillName, cat) →
      ∃ sk ∈ extractSkillsDictionary t,
        sk.name = skillName ∧ sk.category = cat) := by
  constructor
  · decide
  · intro t skillName cat h
    have hmem := mem_skillLookup_of_lookupGet h
    have hsub : pyContains (pyLower t) (pyLower t) = true := hasSub_self _
    exact ⟨_, extractSkillsDictionary_mem hmem hsub, rfl, rfl⟩

/-- C7 witness: the claim evaluated at the canonical name `python` and at
the aliases `k8s` (of `kubernetes`) and `gitlab ci` (of `gitlab`). -/
theorem dictionary_closure_amended_witness :
    (∃ sk ∈ extractSkillsDictionary "python",
      sk.name = "python" ∧ sk.category = "programming_languages") ∧
    (∃ sk ∈ extractSkillsDictionary "k8s",
      sk.name = "kubernetes" ∧ sk.category = "cloud_platforms") ∧
    (∃ sk ∈ extractSkillsDictionary "gitlab ci",
      sk.name = "gitlab" ∧ sk.category = "cloud_platforms") :=
  ⟨dictionary_closure_amended.2 "python" "python" "programming_languages"
      (by decide),
   dictionary_closure_amended.2 "k8s" "kubernetes" "cloud_platforms"
      (by decide),
   dictionary_closure_amended.2 "gitlab ci" "gitlab" "cloud_platforms"
      (by decide)⟩

/-- C7 counterexample: the dictionary lists the canonical skill `gitlab`
under `cloud_platforms`, but its reverse-lookup entry is overwritten by the
alias list of `git`, so extraction on the text `gitlab` produces no
`ExtractedSkill` named `gitlab` at all (hence none with category
`cloud_platforms`). -/
theorem dictionary_closure_counterexample :
    (skillDatabase.any (fun c => c.1 = "cloud_platforms" &&
       c.2.any (fun sk => sk.1 = "gitlab"))) = true ∧
    lookupGet (pyLower "gitlab") = some ("git", "devops_tools") ∧
    (extractSkillsDictionary "gitlab").all (fun sk => !(sk.name = "gitlab")) = true := by
  exact ⟨by decide, by decide, by decide⟩

/-- C8 counterexample: in the text `python python` the term `python` occurs
twice and no skills-section window applies, and the computed confidence is
0.9 = 0.8 + 0.10·(2−1), not the 0.85 = 0.8 + 0.05·(2−1) predicted by the
claim. -/
theorem calcDictionaryConfidence_counterexample :
    countSub "python python".data (pyLower "python").data = 2 ∧
    (["skills", "technologies", "experience", "projects"].any
      (fun sec => pyContains "python python" sec &&
        pyContains (textWindow "python python" sec) "python")) = false ∧
    calcDictionaryConfidence "python" "python python" = 9/10 ∧
    (9/10 : ℚ) ≠ 8/10 + 5/100 * (2 - 1) := by
  have h1 : countSub "python python".data (pyLower "python").data = 2 := by
    decide
  have h2 : (["skills", "technologies", "experience", "projects"].any
      (fun sec => pyContains "python python" sec &&
        pyContains (textWindow "python python" sec) "python")) = false := by
    decide
  refine ⟨h1, h2, ?_, by norm_num⟩
  simp only [calcDictionaryConfidence, h1, h2]
  norm_num [pyMin]

theorem occBonusEq (cnt : ℕ) :
    (if 1 < cnt then pyMin ((1/10) * ((cnt : ℚ) - 1)) (2/10) else 0) =
      (1/10) * ((min (cnt - 1) 2 : ℕ) : ℚ) := by
  by_cases h1 : 1 < cnt
  · rw [if_pos h1, pyMin_eq_min]
    have hc1 : 1 ≤ cnt := by omega
    have hcast : ((cnt - 1 : ℕ) : ℚ) = (cnt : ℚ) - 1 := by
      rw [Nat.cast_sub hc1, Nat.cast_one]
    by_cases h2 : cnt - 1 ≤ 2
    · have hq : ((cnt : ℚ) - 1) ≤ 2 := by
        rw [← hcast]
        exact_mod_cast h2
      rw [min_eq_left (by linarith : (1/10 : ℚ) * ((cnt : ℚ) - 1) ≤ 2/10),
        min_eq_left h2, hcast]
    · have h2n : 2 ≤ cnt - 1 := by omega
      have hq : (2 : ℚ) ≤ (cnt : ℚ) - 1 := by
        rw [← hcast]
        exact_mod_cast h2n
      rw [min_eq_right (by linarith : (2/10 : ℚ) ≤ (1/10) * ((cnt : ℚ) - 1)),
        min_eq_right h2n]
      norm_num
  · rw [if_neg h1]
    have h0 : cnt - 1 = 0 := by omega
    rw [h0]
    norm_num

/-- C8 (amended): the dictionary confidence is the base 0.80, plus 0.10 per
occurrence of the term beyond the first counting at most two extra
occurrences (so this occurrence bonus is capped at +0.20), plus 0.10 when
the term occurs inside the 200-character window at the first occurrence of
a skills-section keyword, the total capped at 1.0. -/
theorem calcDictionaryConfidence_matches_spec (skillTerm text : String) :
    calcDictionaryConfidence skillTerm text =
      min 1 ((8/10 : ℚ)
        + (1/10) *
          ((min (countSub text.data (pyLower skillTerm).data - 1) 2 : ℕ) : ℚ)
        + (if (["skills", "technologies", "experience", "projects"].any
              (fun sec => pyContains text sec &&
                pyContains (textWindow text sec) skillTerm)) then (1/10 : ℚ)
           else 0)) := by
  rw [← occBonusEq]
  simp only [calcDictionaryConfidence]
  by_cases h1 : 1 < countSub text.data (pyLower skillTerm).data <;>
    by_cases h2 : (["skills", "technologies", "experience", "projects"].any
      (fun sec => pyContains text sec &&
        pyContains (textWindow text sec) skillTerm)) = true <;>
    simp only [h1, h2, if_true, if_false, pyMin_eq_min, add_zero,
      Bool.not_eq_true, if_pos, if_neg, not_false_iff, not_true] <;>
    rw [min_comm]

theorem dedupUpsert_mem {d : List ((String × String) × ExtractedSkill)}
    {k : String × String} {sk : ExtractedSkill} :
    ∀ e ∈ dedupUpsert d k sk, e ∈ d ∨ e = (k, sk) := by
  induction d with
  | nil =>
    intro e he
    simp only [dedupUpsert, List.mem_singleton] at he
    exact Or.inr he
  | cons hd t ih =>
    intro e he
    obtain ⟨k', s'⟩ := hd
    simp only [dedupUpsert] at he
    by_cases hk : k' = k
    · rw [if_pos hk] at he
      rcases List.mem_cons.mp he with h | h
      · right
        rw [h, hk]
      · exact Or.inl (List.mem_cons_of_mem _ h)
    · rw [if_neg hk] at he
      rcases List.mem_cons.mp he with h | h
      · left
        rw [h]
        exact List.mem_cons_self _ _
      · rcases ih e h with h' | h'
        · exact Or.inl (List.mem_cons_of_mem _ h')
        · exact Or.inr h'

theorem dedupUpsert_keys {d : List ((String × String) × ExtractedSkill)}
    {k : String × String} {sk : ExtractedSkill} :
    (dedupUpsert d k sk).map (·.1) =
      if k ∈ d.map (·.1) then d.map (·.1) else d.map (·.1) ++ [k] := by
  induction d with
  | nil => simp [dedupUpsert]
  | cons hd t ih =>
    obtain ⟨k', s'⟩ := hd
    simp only [dedupUpsert]
    by_cases hk : k' = k
    · subst hk
      simp
    · rw [if_neg hk]
      simp only [List.map_cons, ih, List.mem_cons]
      by_cases hmem : k ∈ t.map (·.1)
      · simp [hmem]
      · simp [hmem, Ne.symm hk]

theorem dedupUpsert_keys_nodup {d : List ((String × String) × ExtractedSkill)}
    {k : String × String} {sk : ExtractedSkill}
    (h : (d.map (·.1)).Nodup) : ((dedupUpsert d k sk).map (·.1)).Nodup := by
  rw [dedupUpsert_keys]
  split
  · exact h
  · rename_i hnot
    simp [List.nodup_append, h, hnot]

theorem dedupStep_keys_nodup {d : List ((String × String) × ExtractedSkill)}
    {sk : ExtractedSkill} (h : (d.map (·.1)).Nodup) :
    ((dedupStep d sk).map (·.1)).Nodup := by
  rcases hf : d.find? (fun e => e.1 = (pyLower sk.name, sk.category)) with _ | e
  · simp only [dedupStep, hf]
    exact dedupUpsert_keys_nodup h
  · simp only [dedupStep, hf]
    split
    · exact dedupUpsert_keys_nodup h
    · exact h

theorem dedupStep_consistent {d : List ((String × String) × ExtractedSkill)}
    {sk : ExtractedSkill}
    (h : ∀ e ∈ d, e.1 = (pyLower e.2.name, e.2.category)) :
    ∀ e ∈ dedupStep d sk, e.1 = (pyLower e.2.name, e.2.category) := by
  rcases hf : d.find? (fun e => e.1 = (pyLower sk.name, sk.category)) with _ | e0
  · simp only [dedupStep, hf]
    intro e he
    rcases dedupUpsert_mem e he with h' | h'
    · exact h e h'
    · rw [h']
  · simp only [dedupStep, hf]
    split
    · intro e he
      rcases dedupUpsert_mem e he with h' | h'
      · exact h e h'
      · rw [h']
    · exact h

theorem dedupFold_invariant (skills : List ExtractedSkill) :
    ∀ d : List ((String × String) × ExtractedSkill),
      (d.map (·.1)).Nodup →
      (∀ e ∈ d, e.1 = (pyLower e.2.name, e.2.category)) →
      ((skills.foldl dedupStep d).map (·.1)).Nodup ∧
      (∀ e ∈ skills.foldl dedupStep d, e.1 = (pyLower e.2.name, e.2.category)) := by
  induction skills with
  | nil => exact fun d h1 h2 => ⟨h1, h2⟩
  | cons sk t ih =>
    intro d h1 h2
    simp only [List.foldl_cons]
    exact ih _ (dedupStep_keys_nodup h1) (dedupStep_consistent h2)

/-- After `_deduplicate_skills`, no two retained skills share the same
`(lowercased name, category)` key. -/
theorem deduplicateSkills_pairwise (skills : List ExtractedSkill) :
    (deduplicateSkills skills).Pairwise
      (fun a b => ¬(pyLower a.name = pyLower b.name ∧ a.category = b.category)) := by
  obtain ⟨hnodup, hcons⟩ := dedupFold_invariant skills [] (by simp) (by simp)
  unfold deduplicateSkills
  rw [List.pairwise_map]
  rw [List.Nodup, List.pairwise_map] at hnodup
  refine List.Pairwise.imp_of_mem ?_ hnodup
  intro a b ha hb hne hshare
  apply hne
  rw [hcons a ha, hcons b hb, hshare.1, hshare.2]

theorem mem_bucket_filter {l : List ExtractedSkill} {x : SkillBucket}
    {a : ExtractedSkill}
    (ha : a ∈ l.filter (fun sk => bucketOf sk.category = x)) :
    bucketOf a.category = x :=
  of_decide_eq_true (List.mem_filter.mp ha).2

theorem cross_bucket_not_share {a b : ExtractedSkill} {x y : SkillBucket}
    (hax : bucketOf a.category = x) (hby : bucketOf b.category = y)
    (hxy : x ≠ y) :
    ¬(pyLower a.name = pyLower b.name ∧ a.category = b.category) := by
  intro hshare
  exact hxy (by rw [← hax, ← hby, hshare.2])

/-- C10: for every input text (and any behaviour of the regex/NLP strategy
oracles), the skill profile built by `extract_skills` has
`total_skills_count` equal to the sum of the four bucket sizes, contains no
two skills sharing the same `(lowercased name, category)` pair, and has
`skill_diversity_score` equal to the number of non-empty buckets divided
by 4. -/
theorem extractSkills_profile_invariants
    (strategies : String → List ExtractedSkill) (certs : String → List String)
    (text : String) :
    (extractSkills strategies certs text).total_skills_count =
      (extractSkills strategies certs text).technical_skills.length +
      (extractSkills strategies certs text).soft_skills.length +
      (extractSkills strategies certs text).domain_expertise.length +
      (extractSkills strategies certs text).tools_platforms.length ∧
    ((extractSkills strategies certs text).technical_skills ++
      ((extractSkills strategies certs text).soft_skills ++
       ((extractSkills strategies certs text).domain_expertise ++
        (extractSkills strategies certs text).tools_platforms))).Pairwise
      (fun a b => ¬(pyLower a.name = pyLower b.name ∧ a.category = b.category)) ∧
    (extractSkills strategies certs text).skill_diversity_score =
      (((if (extractSkills strategies certs text).technical_skills = [] then 0 else 1) +
        (if (extractSkills strategies certs text).soft_skills = [] then 0 else 1) +
        (if (extractSkills strategies certs text).domain_expertise = [] then 0 else 1) +
        (if (extractSkills strategies certs text).tools_platforms = [] then 0 else 1) : ℚ)) / 4 := by
  have hpair := deduplicateSkills_pairwise (strategies text)
  set l := deduplicateSkills (strategies text) with hl
  refine ⟨rfl, ?_, ?_⟩
  · show ((l.filter (fun sk => bucketOf sk.category = .technical)) ++
      ((l.filter (fun sk => bucketOf sk.category = .soft)) ++
       ((l.filter (fun sk => bucketOf sk.category = .domain)) ++
        (l.filter (fun sk => bucketOf sk.category = .tools))))).Pairwise _
    have hfil : ∀ p : ExtractedSkill → Bool, (l.filter p).Pairwise
        (fun a b => ¬(pyLower a.name = pyLower b.name ∧ a.category = b.category)) :=
      fun p => hpair.filter p
    refine List.pairwise_append.mpr ⟨hfil _, ?_, ?_⟩
    · refine List.pairwise_append.mpr ⟨hfil _, ?_, ?_⟩
      · refine List.pairwise_append.mpr ⟨hfil _, hfil _, ?_⟩
        intro a ha b hb
        exact cross_bucket_not_share (mem_bucket_filter ha)
          (mem_bucket_filter hb) (by decide)
      · intro a ha b hb
        rcases List.mem_append.mp hb with hb | hb
        · exact cross_bucket_not_share (mem_bucket_filter ha)
            (mem_bucket_filter hb) (by decide)
        · exact cross_bucket_not_share (mem_bucket_filter ha)
            (mem_bucket_filter hb) (by decide)
    · intro a ha b hb
      rcases List.mem_append.mp hb with hb | hb
      · exact cross_bucket_not_share (mem_bucket_filter ha)
          (mem_bucket_filter hb) (by decide)
      · rcases List.mem_append.mp hb with hb | hb
        · exact cross_bucket_not_share (mem_bucket_filter ha)
            (mem_bucket_filter hb) (by decide)
        · exact cross_bucket_not_share (mem_bucket_filter ha)
            (mem_bucket_filter hb) (by decide)
  · show pyMin _ _ = _
    by_cases h1 : l.filter (fun sk => bucketOf sk.category = .technical) = [] <;>
      by_cases h2 : l.filter (fun sk => bucketOf sk.category = .soft) = [] <;>
        by_cases h3 : l.filter (fun sk => bucketOf sk.category = .domain) = [] <;>
          by_cases h4 : l.filter (fun sk => bucketOf sk.category = .tools) = [] <;>
            simp only [extractSkills, buildSkillProfile, categorizeSkills, ← hl,
              h1, h2, h3, h4, List.map_eq_nil_iff, List.filter, List.map_nil,
              decide_not] <;>
            norm_num [pyMin]

/-! ## Semantic matcher (`semantic_matcher.py`) -/

/-- All resume skill names, in the order collected by
`match_resume_to_jd`. -/
def allResumeSkillNames (p : SkillProfile) : List String :=
  p.technical_skills.map (·.name) ++ p.soft_skills.map (·.name) ++
  p.domain_expertise.map (·.name) ++ p.tools_platforms.map (·.name)

/-- Keep the best-scoring choice, first on ties — the selection behaviour of
both `fuzzywuzzy.process.extractOne` and `np.argmax`. -/
def bestBy {γ : Type} (score : String → γ) (gt : γ → γ → Bool)
    (choices : List String) : Option (String × γ) :=
  choices.foldl (fun best c =>
    match best with
    | none => some (c, score c)
    | some (b, s) => if gt (score c) s then some (c, score c) else some (b, s))
    none

theorem bestBy_aux {γ : Type} {score : String → γ} {gt : γ → γ → Bool} :
    ∀ (l : List String) (acc r : Option (String × γ)),
      l.foldl (fun best c =>
        match best with
        | none => some (c, score c)
        | some (b, s) => if gt (score c) s then some (c, score c)
          else some (b, s)) acc = r →
      r = acc ∨ ∃ c ∈ l, ∃ g, r = some (c, g) := by
  intro l
  induction l with
  | nil =>
    intro acc r h
    exact Or.inl h.symm
  | cons c t ih =>
    intro acc r h
    simp only [List.foldl_cons] at h
    rcases ih _ r h with h' | ⟨c', hc', g, hg⟩
    · cases acc with
      | none =>
        right
        exact ⟨c, List.mem_cons_self _ _, score c, h'⟩
      | some bs =>
        obtain ⟨b, s⟩ := bs
        simp only at h'
        split at h'
        · right
          exact ⟨c, List.mem_cons_self _ _, score c, h'⟩
        · exact Or.inl h'
    · right
      exact ⟨c', List.mem_cons_of_mem _ hc', g, hg⟩

theorem bestBy_mem {γ : Type} {score : String → γ} {gt : γ → γ → Bool}
    {choices : List String} {b : String} {g : γ}
    (h : bestBy score gt choices = some (b, g)) : b ∈ choices := by
  rcases bestBy_aux choices none _ h with h' | ⟨c, hc, g', hg⟩
  · simp at h'
  · obtain ⟨rfl, rfl⟩ : c = b ∧ g' = g := by
      have := hg.symm.trans rfl
      cases this
      exact ⟨rfl, rfl⟩
    exact hc

/-- `SemanticMatcher._exact_match_skills`: case-insensitive equality against
the first matching resume skill, confidence 1. -/
def exactMatchSkills (resumeSkills jdSkills : List String) : List SkillMatch :=
  jdSkills.filterMap (fun jdSkill =>
    (resumeSkills.find? (fun r => pyLower r = pyLower jdSkill)).map (fun r =>
      { skill_name := jdSkill, resume_skill := some r, jd_skill := jdSkill,
        match_type := "exact", confidence := 1 }))

/-- `SemanticMatcher._fuzzy_match_skills` with the token-sort-ratio backend
as an oracle `scorer`; threshold 85, confidence ratio/100. -/
def fuzzyMatchSkills (scorer : String → String → ℕ)
    (resumeSkills jdSkills : List String) : List SkillMatch :=
  jdSkills.filterMap (fun jdSkill =>
    match bestBy (scorer jdSkill) (fun a b => a > b) resumeSkills with
    | none => none
    | some (best, score) =>
      if 85 ≤ score then
        some { skill_name := jdSkill, resume_skill := some best,
               jd_skill := jdSkill, match_type := "fuzzy",
               confidence := (score : ℚ) / 100 }
      else none)

/-- `SemanticMatcher._semantic_match_skills` with the embedding cosine
similarity as an oracle `sim`; threshold 0.7, first argmax per JD skill. -/
def semanticMatchSkills (sim : String → String → ℚ)
    (resumeSkills jdSkills : List String) : List SkillMatch :=
  jdSkills.filterMap (fun jdSkill =>
    match bestBy (sim jdSkill) (fun a b => a > b) resumeSkills with
    | none => none
    | some (best, s) =>
      if (7 : ℚ)/10 ≤ s then
        some { skill_name := jdSkill, resume_skill := some best,
               jd_skill := jdSkill, match_type := "semantic",
               confidence := s, semantic_similarity := some s }
      else none)

/-- `SemanticMatcher._match_skills_comprehensive`: exact, then fuzzy on the
unmatched remainder, then (when the transformer is available and both
remainders are non-empty) semantic. -/
def matchSkillsComprehensive (scorer : String → String → ℕ)
    (sim : String → String → ℚ) (hasTransformer : Bool)
    (resumeSkills jdSkills : List String) : List SkillMatch :=
  let exactMatches := exactMatchSkills resumeSkills jdSkills
  let matchedResumeSkills : List String :=
    (exactMatches.filter (fun m => pyTruthy m.resume_skill)).filterMap (·.resume_skill)
  let matchedJdSkills : List String := exactMatches.map (·.jd_skill)
  let unmatchedResume := resumeSkills.filter (fun s => decide (s ∉ matchedResumeSkills))
  let unmatchedJd := jdSkills.filter (fun s => decide (s ∉ matchedJdSkills))
  let fuzzyMatches := fuzzyMatchSkills scorer unmatchedResume unmatchedJd
  let fuzzyResume : List String :=
    (fuzzyMatches.filter (fun m => pyTruthy m.resume_skill)).filterMap (·.resume_skill)
  let unmatchedResume2 := unmatchedResume.filter (fun s => decide (s ∉ fuzzyResume))
  let unmatchedJd2 := unmatchedJd.filter (fun s =>
    decide (s ∉ (fuzzyMatches.map (·.jd_skill) : List String)))
  let semanticMatches :=
    if hasTransformer && !unmatchedResume2.isEmpty && !unmatchedJd2.isEmpty then
      semanticMatchSkills sim unmatchedResume2 unmatchedJd2
    else []
  exactMatches ++ fuzzyMatches ++ semanticMatches

/-- `SemanticMatcher._calculate_jaccard_similarity` on lowercased sets. -/
def jaccardSimilarity (l1 l2 : List String) : ℚ :=
  let s1 := (l1.map pyLower).dedup
  let s2 := (l2.map pyLower).dedup
  let inter := (s1.inter s2).length
  let union := (s1.union s2).length
  if union > 0 then (inter : ℚ) / union else 0

/-- `SemanticMatcher._calculate_category_similarities`. -/
def calculateCategorySimilarities (profile : SkillProfile)
    (jd : ParsedJobDescription) : List (String × ℚ) :=
  let resumeTechnical := profile.technical_skills.map (·.name)
  let jdTechnical := jd.required_skills
  let technicalPart :=
    if jdTechnical ≠ [] then
      [("technical", jaccardSimilarity resumeTechnical jdTechnical)]
    else []
  let resumeTools := profile.tools_platforms.map (·.name)
  let jdTools := jd.required_skills.filter (fun s =>
    pyContains (pyLower s) "cloud" || pyContains (pyLower s) "tool")
  technicalPart ++
    (if jdTools ≠ [] then [("tools", jaccardSimilarity resumeTools jdTools)]
     else [])

/-- `SemanticMatcher._calculate_overall_similarity`. -/
def calculateOverallSimilarity (skillMatches : List SkillMatch)
    (totalRequiredSkills : ℕ) (embeddingSimilarity textSimilarity : ℚ) : ℚ :=
  let skillComponent :=
    if totalRequiredSkills > 0 then
      let skillScore := (skillMatches.length : ℚ) / totalRequiredSkills
      let weightedSkillScore :=
        (skillMatches.map (·.confidence)).sum / totalRequiredSkills
      pyMin ((skillScore + weightedSkillScore) / 2) 1
    else 0
  let overallScore := skillComponent * (40/100) +
    embeddingSimilarity * (35/100) + textSimilarity * (25/100)
  pyMin overallScore 1

/-- `SemanticMatcher.match_resume_to_jd`; the sentence-transformer and
TF-IDF backends appear as oracles (`sim`, `embedOracle`, `tfidfOracle`),
with `hasTransformer` modelling their availability. -/
def matchResumeToJd (scorer : String → String → ℕ) (sim : String → String → ℚ)
    (hasTransformer : Bool) (embedOracle tfidfOracle : String → String → ℚ)
    (resumeSkillsProfile : SkillProfile) (jdParsed : ParsedJobDescription)
    (resumeText jdText : String) : SemanticMatchResult :=
  let allResumeSkills := allResumeSkillNames resumeSkillsProfile
  let jdRequiredSkills := jdParsed.required_skills
  let jdPreferredSkills := jdParsed.preferred_skills
  let allJdSkills := jdRequiredSkills ++ jdPreferredSkills
  let skillMatches :=
    matchSkillsComprehensive scorer sim hasTransformer allResumeSkills allJdSkills
  let matchedJdSkills : List String := skillMatches.map (·.jd_skill)
  let missingSkills := jdRequiredSkills.filter (fun s => decide (s ∉ matchedJdSkills))
  let matchedResume : List String :=
    (skillMatches.filter (fun m => pyTruthy m.resume_skill)).filterMap (·.resume_skill)
  let additionalSkills := allResumeSkills.filter (fun s => decide (s ∉ matchedResume))
  let embeddingSimilarity :=
    if hasTransformer then embedOracle (pyTake resumeText 2000) (pyTake jdText 2000)
    else 0
  let textSimilarity := tfidfOracle resumeText jdText
  { overall_similarity :=
      calculateOverallSimilarity skillMatches jdRequiredSkills.length
        embeddingSimilarity textSimilarity
    skill_matches := skillMatches
    missing_skills := missingSkills
    additional_skills := additionalSkills
    category_similarities := calculateCategorySimilarities resumeSkillsProfile jdParsed
    embedding_similarity := embeddingSimilarity
    text_similarity := textSimilarity }

theorem exactMatchSkills_mem {resumeSkills jdSkills : List String}
    {m : SkillMatch} (hm : m ∈ exactMatchSkills resumeSkills jdSkills) :
    m.jd_skill ∈ jdSkills ∧ ∀ r, m.resume_skill = some r → r ∈ resumeSkills := by
  unfold exactMatchSkills at hm
  obtain ⟨jdSkill, hjd, hmk⟩ := List.mem_filterMap.mp hm
  cases hfind : resumeSkills.find? (fun r => pyLower r = pyLower jdSkill) with
  | none => rw [hfind] at hmk; simp at hmk
  | some r0 =>
    rw [hfind] at hmk
    simp only [Option.map_some', Option.some_inj] at hmk
    subst hmk
    refine ⟨hjd, ?_⟩
    intro r hr
    simp only [Option.some_inj] at hr
    subst hr
    exact List.mem_of_find?_eq_some hfind

theorem fuzzyMatchSkills_mem {scorer : String → String → ℕ}
    {resumeSkills jdSkills : List String} {m : SkillMatch}
    (hm : m ∈ fuzzyMatchSkills scorer resumeSkills jdSkills) :
    m.jd_skill ∈ jdSkills ∧ ∀ r, m.resume_skill = some r → r ∈ resumeSkills := by
  unfold fuzzyMatchSkills at hm
  obtain ⟨jdSkill, hjd, hmk⟩ := List.mem_filterMap.mp hm
  cases hbest : bestBy (scorer jdSkill) (fun a b => a > b) resumeSkills with
  | none => rw [hbest] at hmk; simp at hmk
  | some bs =>
    obtain ⟨best, score⟩ := bs
    rw [hbest] at hmk
    simp only at hmk
    split at hmk
    · simp only [Option.some_inj] at hmk
      subst hmk
      refine ⟨hjd, ?_⟩
      intro r hr
      simp only [Option.some_inj] at hr
      subst hr
      exact bestBy_mem hbest
    · simp at hmk

theorem semanticMatchSkills_mem {sim : String → String → ℚ}
    {resumeSkills jdSkills : List String} {m : SkillMatch}
    (hm : m ∈ semanticMatchSkills sim resumeSkills jdSkills) :
    m.jd_skill ∈ jdSkills ∧ ∀ r, m.resume_skill = some r → r ∈ resumeSkills := by
  unfold semanticMatchSkills at hm
  obtain ⟨jdSkill, hjd, hmk⟩ := List.mem_filterMap.mp hm
  cases hbest : bestBy (sim jdSkill) (fun a b => a > b) resumeSkills with
  | none => rw [hbest] at hmk; simp at hmk
  | some bs =>
    obtain ⟨best, s⟩ := bs
    rw [hbest] at hmk
    simp only at hmk
    split at hmk
    · simp only [Option.some_inj] at hmk
      subst hmk
      refine ⟨hjd, ?_⟩
      intro r hr
      simp only [Option.some_inj] at hr
      subst hr
      exact bestBy_mem hbest
    · simp at hmk

theorem matchSkillsComprehensive_mem {scorer : String → String → ℕ}
    {sim : String → String → ℚ} {hasTransformer : Bool}
    {resumeSkills jdSkills : List String} {m : SkillMatch}
    (hm : m ∈ matchSkillsComprehensive scorer sim hasTransformer resumeSkills jdSkills) :
    m.jd_skill ∈ jdSkills ∧ ∀ r, m.resume_skill = some r → r ∈ resumeSkills := by
  simp only [matchSkillsComprehensive, List.mem_append] at hm
  rcases hm with (hm | hm) | hm
  · exact exactMatchSkills_mem hm
  · have h := fuzzyMatchSkills_mem hm
    refine ⟨List.mem_of_mem_filter h.1, fun r hr => List.mem_of_mem_filter (h.2 r hr)⟩
  · split at hm
    · have h := semanticMatchSkills_mem hm
      refine ⟨?_, fun r hr => ?_⟩
      · exact List.mem_of_mem_filter (List.mem_of_mem_filter h.1)
      · exact List.mem_of_mem_filter (List.mem_of_mem_filter (h.2 r hr))
    · simp at hm

/-- C3 (amended): the match result satisfies the set laws: every match's
resume skill (when present) comes from the resume's skill names; every
match's JD skill comes from required ++ preferred; missing skills never
appear among the matched JD skills; and additional skills never appear as a
non-empty resume skill of any match (the code's truthiness filter exempts
the empty-string skill name). -/
theorem matchResumeToJd_set_laws
    (scorer : String → String → ℕ) (sim : String → String → ℚ)
    (hasTransformer : Bool) (embedOracle tfidfOracle : String → String → ℚ)
    (profile : SkillProfile) (jd : ParsedJobDescription)
    (resumeText jdText : String) :
    (∀ m ∈ (matchResumeToJd scorer sim hasTransformer embedOracle tfidfOracle
        profile jd resumeText jdText).skill_matches,
      (∀ r, m.resume_skill = some r → r ∈ allResumeSkillNames profile) ∧
      m.jd_skill ∈ jd.required_skills ++ jd.preferred_skills) ∧
    (∀ s ∈ (matchResumeToJd scorer sim hasTransformer embedOracle tfidfOracle
        profile jd resumeText jdText).missing_skills,
      s ∉ ((matchResumeToJd scorer sim hasTransformer embedOracle tfidfOracle
        profile jd resumeText jdText).skill_matches.map (·.jd_skill) : List String)) ∧
    (∀ s ∈ (matchResumeToJd scorer sim hasTransformer embedOracle tfidfOracle
        profile jd resumeText jdText).additional_skills,
      ∀ m ∈ (matchResumeToJd scorer sim hasTransformer embedOracle tfidfOracle
        profile jd resumeText jdText).skill_matches,
      m.resume_skill = some s → s = "") := by
  refine ⟨?_, ?_, ?_⟩
  · intro m hm
    have hm' : m ∈ matchSkillsComprehensive scorer sim hasTransformer
        (allResumeSkillNames profile)
        (jd.required_skills ++ jd.preferred_skills) := hm
    have h := matchSkillsComprehensive_mem hm'
    exact ⟨h.2, h.1⟩
  · intro s hs
    have hs' : s ∈ jd.required_skills.filter (fun x =>
        decide (x ∉ ((matchSkillsComprehensive scorer sim hasTransformer
          (allResumeSkillNames profile)
          (jd.required_skills ++ jd.preferred_skills)).map (·.jd_skill) :
            List String))) := hs
    exact of_decide_eq_true (List.mem_filter.mp hs').2
  · intro s hs m hm hr
    have hs' : s ∈ (allResumeSkillNames profile).filter (fun x =>
        decide (x ∉ (((matchSkillsComprehensive scorer sim hasTransformer
          (allResumeSkillNames profile)
          (jd.required_skills ++ jd.preferred_skills)).filter
            (fun m => pyTruthy m.resume_skill)).filterMap (·.resume_skill) :
              List String))) := hs
    have hnot := of_decide_eq_true (List.mem_filter.mp hs').2
    by_contra hne
    apply hnot
    apply List.mem_filterMap.mpr
    refine ⟨m, List.mem_filter.mpr ⟨hm, ?_⟩, hr⟩
    rw [hr]
    simp [pyTruthy, hne]

/-- A one-skill profile whose single skill is named by the empty string. -/
def cexSkill : ExtractedSkill :=
  { name := "", category := "programming_languages", confidence := 1,
    context := "" }

def cexProfile : SkillProfile :=
  { technical_skills := [cexSkill]
    soft_skills := []
    domain_expertise := []
    tools_platforms := []
    certifications := []
    skill_categories := []
    total_skills_count := 1
    skill_diversity_score := 0 }

/-- A job description requiring the empty-string skill. -/
def cexJd : ParsedJobDescription :=
  { title := "", company := "", required_skills := [""] }

/-- C3 counterexample: with an empty-string skill name, the empty string both
appears as the `resume_skill` of a match and is reported in
`additional_skills`, so the fourth set law fails as stated. -/
theorem matchResumeToJd_counterexample :
    "" ∈ (matchResumeToJd (fun _ _ => 0) (fun _ _ => 0) false
      (fun _ _ => 0) (fun _ _ => 0) cexProfile cexJd "" "").additional_skills ∧
    ∃ m ∈ (matchResumeToJd (fun _ _ => 0) (fun _ _ => 0) false
      (fun _ _ => 0) (fun _ _ => 0) cexProfile cexJd "" "").skill_matches,
      m.resume_skill = some "" := by
  decide

/-- C4: the overall similarity is 0.40 times the skill component plus 0.35
times the embedding similarity plus 0.25 times the text similarity, capped
at 1, where the skill component is min(1, (coverage + weighted coverage)/2),
coverage = |matches| / |required|, weighted coverage = (sum of match
confidences) / |required|, and the skill component is 0 when there are no
required skills. -/
theorem calculateOverallSimilarity_matches_spec (m : List SkillMatch)
    (total : ℕ) (emb text : ℚ) :
    calculateOverallSimilarity m total emb text =
      min 1 ((40/100) * (if total = 0 then 0
          else min 1 (((m.length : ℚ) / total +
            (m.map (·.confidence)).sum / total) / 2))
        + (35/100) * emb + (25/100) * text) := by
  simp only [calculateOverallSimilarity, pyMin_eq_min]
  rcases Nat.eq_zero_or_pos total with h | h
  · simp only [h, gt_iff_lt, lt_self_iff_false, if_false, if_true]
    rw [min_comm]
    ring_nf
  · rw [if_pos h, if_neg (Nat.pos_iff_ne_zero.mp h)]
    rw [min_comm]
    congr 1
    rw [min_comm]
    ring

/-! ## Scoring engine (`scoring_engine.py`) -/

/-- The error raised by weight validation (spec name `InvalidWeights`). -/
inductive ScoringError where
  | invalidWeights
deriving Repr, DecidableEq

/-- The sum computed by `ScoringWeights.validate`. -/
def weightsTotal (w : ScoringWeights) : ℚ :=
  w.hard_skills + w.soft_skills + w.experience + w.education + w.semantic_match

/-- `ScoringWeights.validate`: fail when `abs(total - 1.0) > 0.01`. -/
def validateWeights (w : ScoringWeights) : Except ScoringError Unit :=
  if 1/100 < |weightsTotal w - 1| then .error .invalidWeights else .ok ()

/-- A descending insertion, modelling `list.sort(reverse=True)`. -/
def insertDesc (x : ℚ) : List ℚ → List ℚ
  | [] => [x]
  | y :: t => if y ≤ x then x :: y :: t else y :: insertDesc x t

/-- Descending sort of rational scores. -/
def sortDesc : List ℚ → List ℚ
  | [] => []
  | x :: t => insertDesc x (sortDesc t)

/-- The soft-skill keyword list of `_extract_soft_skills_from_jd`. -/
def softSkillKeywords : List String :=
  ["leadership", "communication", "teamwork", "collaboration",
   "problem solving", "analytical", "creative", "adaptable",
   "organized", "detail-oriented", "time management", "interpersonal"]

/-- `AdvancedScoringEngine._extract_soft_skills_from_jd`. -/
def extractSoftSkillsFromJd (jd : ParsedJobDescription) : List String :=
  let jdText := pyLower jd.raw_content
  let requirements := pyLower (pyJoin " " jd.requirements)
  let combinedText := jdText ++ " " ++ requirements
  softSkillKeywords.filter (fun sk => pyContains combinedText sk)

/-- `AdvancedScoringEngine._calculate_soft_skills_score`. -/
def calculateSoftSkillsScore (profile : SkillProfile)
    (jd : ParsedJobDescription) : ℚ :=
  let jdSoftSkills := extractSoftSkillsFromJd jd
  if jdSoftSkills = [] then
    (if profile.soft_skills ≠ [] then 8/10 else 3/10)
  else
    let resumeSoftSkills := profile.soft_skills.map (fun s => pyLower s.name)
    let matchedSoftSkills := (jdSoftSkills.filter (fun jdSkill =>
      resumeSoftSkills.any (fun resumeSkill =>
        pyContains resumeSkill (pyLower jdSkill)))).length
    let baseScore := (matchedSoftSkills : ℚ) / jdSoftSkills.length
    let varietyBonus := pyMin ((profile.soft_skills.length : ℚ) / 10) (2/10)
    pyMin 1 (baseScore + varietyBonus)

/-- `AdvancedScoringEngine._calculate_years_experience_score`. The Python
`or` defaults turn a missing candidate value into 0 and a missing or zero
requirement into 2. -/
def calculateYearsExperienceScore (resume : ParsedResume)
    (jd : ParsedJobDescription) : ℚ :=
  let candidateYears : ℚ :=
    match resume.total_experience_years with
    | none => 0
    | some y => y
  let requiredYears : ℚ :=
    match jd.required_experience_years with
    | none => 2
    | some y => if y = 0 then 2 else (y : ℚ)
  if requiredYears ≤ candidateYears then
    (if requiredYears * (15/10) < candidateYears then pyMin 1 (1 + 1/10) else 1)
  else
    let r := candidateYears / requiredYears
    if (75/100) ≤ r then 8/10
    else if (1/2) ≤ r then 6/10
    else r * (1/2)

/-- `AdvancedScoringEngine._calculate_title_relevance`: Jaccard similarity
of the lowercased word sets of the two titles. -/
def calculateTitleRelevance (resumeTitle jdTitle : String) : ℚ :=
  if resumeTitle = "" ∨ jdTitle = "" then 1/2
  else
    let resumeWords := (pyWords (pyLower resumeTitle)).dedup
    let jdWords := (pyWords (pyLower jdTitle)).dedup
    let commonWords := resumeWords.inter jdWords
    let totalWords := resumeWords.union jdWords
    if totalWords ≠ [] then (commonWords.length : ℚ) / totalWords.length else 0

/-- `AdvancedScoringEngine._calculate_industry_relevance`. -/
def calculateIndustryRelevance (resumeCompany jdCompany : String) : ℚ :=
  if resumeCompany = "" ∨ jdCompany = "" then 1/2
  else
    let resumeWords := (pyWords (pyLower resumeCompany)).dedup
    let jdWords := (pyWords (pyLower jdCompany)).dedup
    if resumeWords.inter jdWords ≠ [] then 9/10 else 4/10

/-- `AdvancedScoringEngine._calculate_description_relevance`. -/
def calculateDescriptionRelevance (descriptionList : List String)
    (jd : ParsedJobDescription) : ℚ :=
  if descriptionList = [] then 3/10
  else
    let descriptionText := pyLower (pyJoin " " descriptionList)
    let jdKeywords := jd.required_skills.map pyLower ++
      jd.responsibilities.flatMap (fun resp => pyWords (pyLower resp))
    if jdKeywords = [] then 1/2
    else
      pyMin 1 (((jdKeywords.filter
        (fun k => pyContains descriptionText k)).length : ℚ) / jdKeywords.length)

/-- `AdvancedScoringEngine._calculate_recency_weight`, with the wall clock's
`datetime.now().year` passed in as `cy`. -/
def calculateRecencyWeight (cy : ℤ) (endDate : Option String) : ℚ :=
  match endDate with
  | none => 1
  | some d =>
    if d = "" then 1
    else if pyLower d ∈ ["present", "current", "now"] then 1
    else
      match ((List.range 11).map (fun i => cy - 10 + Int.ofNat i)).find?
          (fun y => pyContains d (toString y)) with
      | some y => pyMax (1/2) (1 - ((cy : ℚ) - (y : ℚ)) * (1/10))
      | none => 7/10

/-- `AdvancedScoringEngine._calculate_experience_relevance_score`. -/
def calculateExperienceRelevanceScore (cy : ℤ) (resume : ParsedResume)
    (jd : ParsedJobDescription) : ℚ :=
  if resume.work_experience = [] then 2/10
  else
    let relevanceScores := resume.work_experience.map (fun exp =>
      (calculateTitleRelevance exp.title jd.title * (4/10) +
       calculateIndustryRelevance exp.company jd.company * (2/10) +
       calculateDescriptionRelevance exp.description jd * (4/10)) *
      calculateRecencyWeight cy exp.end_date)
    match sortDesc relevanceScores with
    | s0 :: s1 :: s2 :: _ => s0 * (1/2) + s1 * (3/10) + s2 * (2/10)
    | [s0, s1] => s0 * (7/10) + s1 * (3/10)
    | [s0] => s0
    | [] => 0

/-- `AdvancedScoringEngine._calculate_experience_score`. -/
def calculateExperienceScore (cy : ℤ) (resume : ParsedResume)
    (jd : ParsedJobDescription) : ℚ :=
  calculateYearsExperienceScore resume jd * (6/10) +
  calculateExperienceRelevanceScore cy resume jd * (4/10)

/-- The education hierarchy of `_calculate_education_level_score`, in
dictionary order. -/
def educationLevels : List (String × ℕ) :=
  [("phd", 5), ("doctorate", 5), ("doctoral", 5),
   ("master", 4), ("mba", 4), ("ms", 4), ("ma", 4),
   ("bachelor", 3), ("bs", 3), ("ba", 3),
   ("associate", 2),
   ("diploma", 1), ("certificate", 1)]

/-- The inner loop of `_calculate_education_level_score`: the level of the
first hierarchy keyword contained in the lowercased degree, 0 otherwise. -/
def degreeLevel (degree : String) : ℕ :=
  match educationLevels.find? (fun lv => pyContains (pyLower degree) lv.1) with
  | some lv => lv.2
  | none => 0

/-- The highest education level over the candidate's degrees (degrees that
are `None` or empty are skipped by truthiness). -/
def maxEducationLevel (educationList : List Education) : ℕ :=
  educationList.foldl (fun acc edu =>
    match edu.degree with
    | none => acc
    | some d => if d = "" then acc else max acc (degreeLevel d)) 0

/-- `AdvancedScoringEngine._extract_required_education_level`. -/
def extractRequiredEducationLevel (jd : ParsedJobDescription) : ℕ :=
  let combinedText := pyLower jd.raw_content ++ " " ++
    pyLower (pyJoin " " jd.requirements)
  if ["phd", "doctorate", "doctoral"].any
      (fun word => pyContains combinedText word) then 5
  else if ["master", "mba", "ms", "ma"].any
      (fun word => pyContains combinedText word) then 4
  else if ["bachelor", "bs", "ba", "degree"].any
      (fun word => pyContains combinedText word) then 3
  else if ["associate"].any (fun word => pyContains combinedText word) then 2
  else 2

/-- `AdvancedScoringEngine._calculate_education_level_score`. -/
def calculateEducationLevelScore (educationList : List Education)
    (jd : ParsedJobDescription) : ℚ :=
  let maxLevel := maxEducationLevel educationList
  let requiredLevel := extractRequiredEducationLevel jd
  if requiredLevel ≤ maxLevel then 1
  else if requiredLevel - 1 ≤ maxLevel then 8/10
  else 1/2

/-- The domain keyword families of `_extract_job_domain_keywords`, in
dictionary order. -/
def domainKeywordFamilies : List (String × List String) :=
  [("software", ["software", "programming", "development", "engineering",
     "computer"]),
   ("data", ["data", "analytics", "science", "machine learning",
     "statistics"]),
   ("marketing", ["marketing", "digital", "campaign", "brand",
     "advertising"]),
   ("finance", ["finance", "accounting", "financial", "investment",
     "banking"]),
   ("sales", ["sales", "business development", "revenue", "client",
     "customer"])]

/-- `AdvancedScoringEngine._extract_job_domain_keywords`: take the first
family with a keyword occurring in title + content, limited to 5. -/
def extractJobDomainKeywords (jd : ParsedJobDescription) : List String :=
  let jdText := pyLower jd.title ++ " " ++ pyLower jd.raw_content
  match domainKeywordFamilies.find?
      (fun fam => fam.2.any (fun k => pyContains jdText k)) with
  | some fam => fam.2.take 5
  | none => []

/-- `AdvancedScoringEngine._calculate_education_relevance_score`. -/
def calculateEducationRelevanceScore (educationList : List Education)
    (jd : ParsedJobDescription) : ℚ :=
  let jobKeywords := extractJobDomainKeywords jd
  if jobKeywords = [] then 7/10
  else
    let maxRelevance : ℕ := educationList.foldl (fun acc edu =>
      match edu.degree with
      | none => acc
      | some d =>
        if d = "" then acc
        else max acc ((jobKeywords.filter
          (fun k => pyContains (pyLower d) k)).length)) 0
    pyMin 1 ((maxRelevance : ℚ) / jobKeywords.length)

/-- `AdvancedScoringEngine._calculate_education_score`. -/
def calculateEducationScore (resume : ParsedResume)
    (jd : ParsedJobDescription) : ℚ :=
  if resume.education = [] then 3/10
  else
    calculateEducationLevelScore resume.education jd * (6/10) +
    calculateEducationRelevanceScore resume.education jd * (4/10)

/-- The critical-skill keywords of `_identify_critical_skills`. -/
def criticalKeywords : List String := ["required", "must", "essential", "mandatory"]

/-- `AdvancedScoringEngine._identify_critical_skills`. -/
def identifyCriticalSkills (requiredSkills : List String) : List String :=
  requiredSkills.filter (fun skill =>
    criticalKeywords.any (fun k => pyContains (pyLower skill) k))

/-- `AdvancedScoringEngine._calculate_hard_skills_score`. -/
def calculateHardSkillsScore (profile : SkillProfile)
    (sm : SemanticMatchResult) (jd : ParsedJobDescription) : ℚ :=
  if jd.required_skills = [] then 1/2
  else
    let totalRequired := jd.required_skills.length
    let matchedSkills := (sm.skill_matches.filter
      (fun m => (7 : ℚ)/10 ≤ m.confidence)).length
    let baseScore :=
      if 0 < totalRequired then (matchedSkills : ℚ) / totalRequired else 0
    let diversityBonus := profile.skill_diversity_score * (2/10)
    let highConfidenceMatches := (sm.skill_matches.filter
      (fun m => (9 : ℚ)/10 ≤ m.confidence)).length
    let confidenceBonus :=
      if 0 < totalRequired then
        ((highConfidenceMatches : ℚ) / totalRequired) * (1/10)
      else 0
    let criticalSkills := identifyCriticalSkills jd.required_skills
    let missingCritical := (criticalSkills.filter
      (fun s => decide (s ∈ sm.missing_skills))).length
    let criticalPenalty :=
      if criticalSkills ≠ [] then
        ((missingCritical : ℚ) / criticalSkills.length) * (3/10)
      else 0
    pyMax 0 (pyMin 1 (baseScore + diversityBonus + confidenceBonus - criticalPenalty))

/-- `AdvancedScoringEngine._calculate_semantic_score`. -/
def calculateSemanticScore (sm : SemanticMatchResult) : ℚ :=
  sm.overall_similarity

/-- `AdvancedScoringEngine._calculate_detailed_scores`. -/
def calculateDetailedScores (cy : ℤ) (resume : ParsedResume)
    (profile : SkillProfile) (sm : SemanticMatchResult)
    (jd : ParsedJobDescription)
    (hardSkillsScore softSkillsScore experienceScore educationScore
      semanticScore : ℚ) : DetailedScores :=
  let technicalSkillsScore := (profile.technical_skills.length : ℚ) / 10 * 100
  let domainExpertiseScore := (profile.domain_expertise.length : ℚ) / 5 * 100
  let toolsPlatformsScore := (profile.tools_platforms.length : ℚ) / 8 * 100
  let yearsExperienceScore := calculateYearsExperienceScore resume jd * 100
  let experienceRelevanceScore :=
    calculateExperienceRelevanceScore cy resume jd * 100
  let educationLevelScore := calculateEducationLevelScore resume.education jd * 100
  let educationRelevanceScore :=
    calculateEducationRelevanceScore resume.education jd * 100
  let parsingConfidence := resume.parsing_confidence * 100
  let matchingConfidence :=
    if sm.skill_matches ≠ [] then
      ((sm.skill_matches.map (·.confidence)).sum / sm.skill_matches.length) * 100
    else 50
  let overallConfidence := (parsingConfidence + matchingConfidence) / 2
  { hard_skills_score := round1 (hardSkillsScore * 100)
    soft_skills_score := round1 (softSkillsScore * 100)
    experience_score := round1 (experienceScore * 100)
    education_score := round1 (educationScore * 100)
    semantic_match_score := round1 (semanticScore * 100)
    technical_skills_score := round1 (pyMin technicalSkillsScore 100)
    domain_expertise_score := round1 (pyMin domainExpertiseScore 100)
    tools_platforms_score := round1 (pyMin toolsPlatformsScore 100)
    years_experience_score := round1 yearsExperienceScore
    experience_relevance_score := round1 experienceRelevanceScore
    education_level_score := round1 educationLevelScore
    education_relevance_score := round1 educationRelevanceScore
    skills_matched_count := sm.skill_matches.length
    skills_required_count := jd.required_skills.length
    skills_missing_count := sm.missing_skills.length
    skills_additional_count := sm.additional_skills.length
    parsing_confidence := round1 parsingConfidence
    matching_confidence := round1 matchingConfidence
    overall_confidence := round1 overallConfidence }

/-- `AdvancedScoringEngine._determine_suitability`, with the configured
thresholds as parameters. -/
def determineSuitability (highT mediumT : ℚ) (overallScore : ℚ)
    (ds : DetailedScores) : String :=
  let base1 :=
    if highT ≤ overallScore then "High"
    else if mediumT ≤ overallScore then "Medium"
    else "Low"
  let base2 :=
    if ds.skills_matched_count < ds.skills_missing_count then
      (if base1 = "High" then "Medium"
       else if base1 = "Medium" then "Low"
       else base1)
    else base1
  let base3 :=
    if 90 ≤ ds.experience_score ∨ 95 ≤ ds.hard_skills_score ∨
        90 ≤ ds.education_score then
      (if base2 = "Low" ∧ 50 ≤ overallScore then "Medium" else base2)
    else base2
  if ds.overall_confidence < 60 then
    (if base3 = "High" then "Medium" else base3)
  else base3

/-- `AdvancedScoringEngine._calculate_confidence_level`. -/
def calculateConfidenceLevel (resume : ParsedResume)
    (ds : DetailedScores) : String :=
  let confidenceFactors : List ℚ := [
    ds.parsing_confidence / 100,
    ds.matching_confidence / 100,
    pyMin ((ds.skills_matched_count : ℚ) / ((max ds.skills_required_count 1 : ℕ) : ℚ)) 1,
    (if pyTruthy resume.contact_info.email then 1 else 1/2),
    (if resume.work_experience ≠ [] then 1 else 3/10)]
  let avgConfidence := confidenceFactors.sum / 5
  if (8/10) ≤ avgConfidence then "high"
  else if (6/10) ≤ avgConfidence then "medium"
  else "low"

/-- `AdvancedScoringEngine.calculate_comprehensive_score`, with the
configured thresholds and the current year as parameters. -/
def calculateComprehensiveScore (w : ScoringWeights) (highT mediumT : ℚ)
    (cy : ℤ) (resume : ParsedResume) (profile : SkillProfile)
    (sm : SemanticMatchResult) (jd : ParsedJobDescription) : FinalScore :=
  let hardSkillsScore := calculateHardSkillsScore profile sm jd
  let softSkillsScore := calculateSoftSkillsScore profile jd
  let experienceScore := calculateExperienceScore cy resume jd
  let educationScore := calculateEducationScore resume jd
  let semanticScore := calculateSemanticScore sm
  let overallScore :=
    (hardSkillsScore * w.hard_skills + softSkillsScore * w.soft_skills +
     experienceScore * w.experience + educationScore * w.education +
     semanticScore * w.semantic_match) * 100
  let detailedScores := calculateDetailedScores cy resume profile sm jd
    hardSkillsScore softSkillsScore experienceScore educationScore semanticScore
  let suitability := determineSuitability highT mediumT overallScore detailedScores
  let confidenceLevel := calculateConfidenceLevel resume detailedScores
  { overall_score := round1 overallScore
    detailed_scores := detailedScores
    suitability := suitability
    confidence_level := confidenceLevel }

/-- `Score`: `AdvancedScoringEngine.__init__` validates the weights before
any score is produced; a failed validation yields `InvalidWeights` and no
`FinalScore`. -/
def scoreWithWeights (w : ScoringWeights) (highT mediumT : ℚ) (cy : ℤ)
    (resume : ParsedResume) (profile : SkillProfile)
    (sm : SemanticMatchResult) (jd : ParsedJobDescription) :
    Except ScoringError FinalScore :=
  match validateWeights w with
  | .error e => .error e
  | .ok _ =>
    .ok (calculateComprehensiveScore w highT mediumT cy resume profile sm jd)

/-- C1: the scoring engine fails with `InvalidWeights` exactly when the five
weights sum to a total farther than 0.01 from 1.0, and produces a
`FinalScore` exactly when the total is within 0.01 of 1.0. -/
theorem scoreWithWeights_validates (w : ScoringWeights) (highT mediumT : ℚ)
    (cy : ℤ) (resume : ParsedResume) (profile : SkillProfile)
    (sm : SemanticMatchResult) (jd : ParsedJobDescription) :
    (scoreWithWeights w highT mediumT cy resume profile sm jd =
        .error .invalidWeights ↔ 1/100 < |weightsTotal w - 1|) ∧
    ((∃ fs, scoreWithWeights w highT mediumT cy resume profile sm jd = .ok fs)
      ↔ |weightsTotal w - 1| ≤ 1/100) := by
  unfold scoreWithWeights validateWeights
  by_cases h : 1/100 < |weightsTotal w - 1|
  · rw [if_pos h]
    refine ⟨⟨fun _ => h, fun _ => rfl⟩, ?_, ?_⟩
    · rintro ⟨fs, hfs⟩
      exact absurd hfs (by simp)
    · intro hle
      exact absurd h (not_lt.mpr hle)
  · rw [if_neg h]
    refine ⟨⟨fun hc => absurd hc (by simp), fun hlt => absurd hlt h⟩,
      fun _ => not_lt.mp h, fun _ => ⟨_, rfl⟩⟩

/-- C5: the hard-skills component equals
`max(0, min(1, base + 0.2·diversity + 0.1·high/|required| −
0.3·missing_critical/|critical|))` with base the share of matches of
confidence at least 0.7, criticality meaning the skill text contains one of
required/must/essential/mandatory, a zero penalty without critical skills,
and exactly 0.5 when the JD has no required skills. -/
theorem calculateHardSkillsScore_matches_spec (profile : SkillProfile)
    (sm : SemanticMatchResult) (jd : ParsedJobDescription) :
    calculateHardSkillsScore profile sm jd =
      if jd.required_skills = [] then 1/2
      else
        max 0 (min 1
          (((sm.skill_matches.filter
              (fun m => (7 : ℚ)/10 ≤ m.confidence)).length : ℚ) /
              jd.required_skills.length
            + (2/10) * profile.skill_diversity_score
            + (1/10) * (((sm.skill_matches.filter
                (fun m => (9 : ℚ)/10 ≤ m.confidence)).length : ℚ) /
                jd.required_skills.length)
            - (if (jd.required_skills.filter (fun s =>
                  ["required", "must", "essential", "mandatory"].any
                    (fun k => pyContains (pyLower s) k))) = [] then 0
               else (3/10) *
                 ((((jd.required_skills.filter (fun s =>
                    ["required", "must", "essential", "mandatory"].any
                      (fun k => pyContains (pyLower s) k))).filter
                      (fun s => decide (s ∈ sm.missing_skills))).length : ℚ) /
                  ((jd.required_skills.filter (fun s =>
                    ["required", "must", "essential", "mandatory"].any
                      (fun k => pyContains (pyLower s) k))).length : ℚ))))) := by
  unfold calculateHardSkillsScore identifyCriticalSkills criticalKeywords
  by_cases hreq : jd.required_skills = []
  · rw [if_pos hreq, if_pos hreq]
  · rw [if_neg hreq, if_neg hreq]
    have hpos : 0 < jd.required_skills.length := List.length_pos.mpr hreq
    simp only [if_pos hpos, pyMax_eq_max, pyMin_eq_min]
    congr 1
    congr 1
    by_cases hcrit : (jd.required_skills.filter (fun s =>
        ["required", "must", "essential", "mandatory"].any
          (fun k => pyContains (pyLower s) k))) = []
    · rw [if_pos hcrit]
      simp only [ne_eq, hcrit, not_true_eq_false, if_false]
      ring
    · rw [if_neg hcrit]
      simp only [ne_eq, hcrit, not_false_eq_true, if_true]
      ring

/-- The claim's base determination: High iff the overall score reaches the
high threshold, else Medium iff it reaches the medium threshold, else Low. -/
def specSuitabilityBase (highT mediumT overallScore : ℚ) : String :=
  if highT ≤ overallScore then "High"
  else if mediumT ≤ overallScore then "Medium"
  else "Low"

/-- Claim adjustment (1): more skills missing than matched downgrades one
level. -/
def specDowngradeMissing (ds : DetailedScores) (s : String) : String :=
  if ds.skills_matched_count < ds.skills_missing_count then
    (if s = "High" then "Medium" else if s = "Medium" then "Low" else s)
  else s

/-- Claim adjustment (2): an exceptional component upgrades Low to Medium
iff the overall score is at least 50. -/
def specUpgradeExceptional (overallScore : ℚ) (ds : DetailedScores)
    (s : String) : String :=
  if 90 ≤ ds.experience_score ∨ 95 ≤ ds.hard_skills_score ∨
      90 ≤ ds.education_score then
    (if s = "Low" ∧ 50 ≤ overallScore then "Medium" else s)
  else s

/-- Claim adjustment (3): low overall confidence downgrades High to
Medium. -/
def specDowngradeConfidence (ds : DetailedScores) (s : String) : String :=
  if ds.overall_confidence < 60 then (if s = "High" then "Medium" else s)
  else s

/-- C6: suitability is the threshold verdict followed by exactly the three
adjustments, applied in order. -/
theorem determineSuitability_matches_spec (highT mediumT overallScore : ℚ)
    (ds : DetailedScores) :
    determineSuitability highT mediumT overallScore ds =
      specDowngradeConfidence ds
        (specUpgradeExceptional overallScore ds
          (specDowngradeMissing ds
            (specSuitabilityBase highT mediumT overallScore))) := by
  unfold determineSuitability specSuitabilityBase specDowngradeMissing
    specUpgradeExceptional specDowngradeConfidence
  by_cases h1 : highT ≤ overallScore <;>
  by_cases h2 : mediumT ≤ overallScore <;>
  by_cases c1 : ds.skills_matched_count < ds.skills_missing_count <;>
  by_cases c2 : 90 ≤ ds.experience_score ∨ 95 ≤ ds.hard_skills_score ∨
    90 ≤ ds.education_score <;>
  by_cases c3 : (50 : ℚ) ≤ overallScore <;>
  by_cases c4 : ds.overall_confidence < 60 <;>
  simp [h1, h2, c1, c2, c3, c4]

theorem mem_insertDesc {a x : ℚ} : ∀ {l : List ℚ}, a ∈ insertDesc x l →
    a = x ∨ a ∈ l := by
  intro l
  induction l with
  | nil =>
    intro h
    simp [insertDesc] at h
    exact Or.inl h
  | cons y t ih =>
    intro h
    simp only [insertDesc] at h
    split at h
    · rcases List.mem_cons.mp h with h | h
      · exact Or.inl h
      · exact Or.inr h
    · rcases List.mem_cons.mp h with h | h
      · exact Or.inr (h ▸ List.mem_cons_self _ _)
      · rcases ih h with h' | h'
        · exact Or.inl h'
        · exact Or.inr (List.mem_cons_of_mem _ h')

theorem mem_sortDesc {a : ℚ} : ∀ {l : List ℚ}, a ∈ sortDesc l → a ∈ l := by
  intro l
  induction l with
  | nil => intro h; simp [sortDesc] at h
  | cons x t ih =>
    intro h
    simp only [sortDesc] at h
    rcases mem_insertDesc h with h' | h'
    · exact h' ▸ List.mem_cons_self _ _
    · exact List.mem_cons_of_mem _ (ih h')

theorem calculateTitleRelevance_bounds (rt jt : String) :
    0 ≤ calculateTitleRelevance rt jt ∧ calculateTitleRelevance rt jt ≤ 1 := by
  simp only [calculateTitleRelevance]
  split
  · norm_num
  · split
    · rename_i htot
      constructor
      · positivity
      · have hpos : 0 < ((pyWords (pyLower rt)).dedup.union
            (pyWords (pyLower jt)).dedup).length := List.length_pos.mpr htot
        rw [div_le_one (by exact_mod_cast hpos)]
        have hsub : (pyWords (pyLower rt)).dedup.inter (pyWords (pyLower jt)).dedup ⊆
            (pyWords (pyLower rt)).dedup.union (pyWords (pyLower jt)).dedup := by
          intro x hx
          exact List.mem_union_left (List.mem_of_mem_inter_left hx) _
        have hnd : ((pyWords (pyLower rt)).dedup.inter
            (pyWords (pyLower jt)).dedup).Nodup :=
          List.Nodup.inter _ (List.nodup_dedup _)
        exact_mod_cast (hnd.subperm hsub).length_le
    · norm_num

theorem calculateIndustryRelevance_bounds (rc jc : String) :
    0 ≤ calculateIndustryRelevance rc jc ∧ calculateIndustryRelevance rc jc ≤ 1 := by
  simp only [calculateIndustryRelevance]
  split
  · norm_num
  · split <;> norm_num

theorem calculateDescriptionRelevance_bounds (dl : List String)
    (jd : ParsedJobDescription) :
    0 ≤ calculateDescriptionRelevance dl jd ∧
    calculateDescriptionRelevance dl jd ≤ 1 := by
  simp only [calculateDescriptionRelevance]
  split
  · norm_num
  · split
    · norm_num
    · rw [pyMin_eq_min]
      constructor
      · apply le_min (by norm_num)
        positivity
      · exact min_le_left _ _

theorem calculateRecencyWeight_bounds (cy : ℤ) (endDate : Option String) :
    0 ≤ calculateRecencyWeight cy endDate ∧
    calculateRecencyWeight cy endDate ≤ 1 := by
  have key : ∀ y : ℤ, cy - 10 ≤ y → y ≤ cy →
      0 ≤ pyMax (1/2) (1 - ((cy : ℚ) - ((y : ℤ) : ℚ)) * (1/10)) ∧
      pyMax (1/2) (1 - ((cy : ℚ) - ((y : ℤ) : ℚ)) * (1/10)) ≤ 1 := by
    intro y h1 h2
    rw [pyMax_eq_max]
    have hq1 : ((y : ℚ)) ≤ ((cy : ℚ)) := by exact_mod_cast h2
    have hq2 : ((cy : ℚ)) - 10 ≤ ((y : ℚ)) := by
      have hc : ((cy - 10 : ℤ) : ℚ) ≤ ((y : ℤ) : ℚ) := by exact_mod_cast h1
      push_cast at hc
      linarith
    constructor
    · exact le_trans (by norm_num) (le_max_left _ _)
    · apply max_le (by norm_num)
      nlinarith
  cases endDate with
  | none =>
    simp only [calculateRecencyWeight]
    norm_num
  | some d =>
    simp only [calculateRecencyWeight]
    by_cases hd : d = ""
    · rw [if_pos hd]
      norm_num
    · rw [if_neg hd]
      by_cases hp : pyLower d ∈ ["present", "current", "now"]
      · rw [if_pos hp]
        norm_num
      · rw [if_neg hp]
        cases hfind : ((List.range 11).map (fun i => cy - 10 + Int.ofNat i)).find?
            (fun y => pyContains d (toString y)) with
        | none => norm_num
        | some y =>
          have hy := List.mem_of_find?_eq_some hfind
          obtain ⟨i, hi, heq⟩ := List.mem_map.mp hy
          have hi11 : i < 11 := by simpa using hi
          refine key y ?_ ?_
          · rw [← heq]
            simp only [Int.ofNat_eq_coe]
            omega
          · rw [← heq]
            simp only [Int.ofNat_eq_coe]
            omega

theorem experienceEntryScore_bounds (cy : ℤ) (exp : WorkExperience)
    (jd : ParsedJobDescription) :
    0 ≤ (calculateTitleRelevance exp.title jd.title * (4/10) +
        calculateIndustryRelevance exp.company jd.company * (2/10) +
        calculateDescriptionRelevance exp.description jd * (4/10)) *
        calculateRecencyWeight cy exp.end_date ∧
    (calculateTitleRelevance exp.title jd.title * (4/10) +
        calculateIndustryRelevance exp.company jd.company * (2/10) +
        calculateDescriptionRelevance exp.description jd * (4/10)) *
        calculateRecencyWeight cy exp.end_date ≤ 1 := by
  obtain ⟨ht0, ht1⟩ := calculateTitleRelevance_bounds exp.title jd.title
  obtain ⟨hi0, hi1⟩ := calculateIndustryRelevance_bounds exp.company jd.company
  obtain ⟨hd0, hd1⟩ := calculateDescriptionRelevance_bounds exp.description jd
  obtain ⟨hr0, hr1⟩ := calculateRecencyWeight_bounds cy exp.end_date
  constructor
  · apply mul_nonneg _ hr0
    positivity
  · apply mul_le_one₀ _ hr0 hr1
    linarith

theorem calculateExperienceRelevanceScore_bounds (cy : ℤ)
    (resume : ParsedResume) (jd : ParsedJobDescription) :
    0 ≤ calculateExperienceRelevanceScore cy resume jd ∧
    calculateExperienceRelevanceScore cy resume jd ≤ 1 := by
  simp only [calculateExperienceRelevanceScore]
  split
  · norm_num
  · rename_i hwork
    have hmem : ∀ s ∈ sortDesc (resume.work_experience.map (fun exp =>
        (calculateTitleRelevance exp.title jd.title * (4/10) +
         calculateIndustryRelevance exp.company jd.company * (2/10) +
         calculateDescriptionRelevance exp.description jd * (4/10)) *
        calculateRecencyWeight cy exp.end_date)), 0 ≤ s ∧ s ≤ 1 := by
      intro s hs
      obtain ⟨exp, _, rfl⟩ := List.mem_map.mp (mem_sortDesc hs)
      exact experienceEntryScore_bounds cy exp jd
    cases hsort : sortDesc (resume.work_experience.map (fun exp =>
        (calculateTitleRelevance exp.title jd.title * (4/10) +
         calculateIndustryRelevance exp.company jd.company * (2/10) +
         calculateDescriptionRelevance exp.description jd * (4/10)) *
        calculateRecencyWeight cy exp.end_date)) with
    | nil => norm_num
    | cons s0 rest =>
      have h0 := hmem s0 (hsort ▸ List.mem_cons_self _ _)
      cases rest with
      | nil => exact h0
      | cons s1 rest2 =>
        have h1 := hmem s1 (hsort ▸ List.mem_cons_of_mem _ (List.mem_cons_self _ _))
        cases rest2 with
        | nil =>
          constructor
          · nlinarith [h0.1, h1.1]
          · nlinarith [h0.2, h1.2]
        | cons s2 rest3 =>
          have h2 := hmem s2 (hsort ▸ List.mem_cons_of_mem _
            (List.mem_cons_of_mem _ (List.mem_cons_self _ _)))
          constructor
          · nlinarith [h0.1, h1.1, h2.1]
          · nlinarith [h0.2, h1.2, h2.2]

theorem calculateYearsExperienceScore_bounds (resume : ParsedResume)
    (jd : ParsedJobDescription)
    (hyears : ∀ y ∈ resume.total_experience_years, 0 ≤ y) :
    0 ≤ calculateYearsExperienceScore resume jd ∧
    calculateYearsExperienceScore resume jd ≤ 1 := by
  simp only [calculateYearsExperienceScore]
  have hcand : 0 ≤ (match resume.total_experience_years with
      | none => (0 : ℚ)
      | some y => y) := by
    cases hty : resume.total_experience_years with
    | none => norm_num
    | some y => exact hyears y (by rw [hty]; rfl)
  split
  · split
    · rw [pyMin_eq_min]
      constructor
      · apply le_min (by norm_num) (by norm_num)
      · exact min_le_left _ _
    · norm_num
  · rename_i hlt
    push_neg at hlt
    have hreqpos : 0 < (match jd.required_experience_years with
        | none => (2 : ℚ)
        | some y => if y = 0 then 2 else (y : ℚ)) := lt_of_le_of_lt hcand hlt
    split
    · norm_num
    · split
      · norm_num
      · constructor
        · have : 0 ≤ (match resume.total_experience_years with
              | none => (0 : ℚ)
              | some y => y) /
              (match jd.required_experience_years with
              | none => (2 : ℚ)
              | some y => if y = 0 then 2 else (y : ℚ)) :=
            div_nonneg hcand (le_of_lt hreqpos)
          linarith
        · have hr1 : (match resume.total_experience_years with
              | none => (0 : ℚ)
              | some y => y) /
              (match jd.required_experience_years with
              | none => (2 : ℚ)
              | some y => if y = 0 then 2 else (y : ℚ)) ≤ 1 := by
            rw [div_le_one hreqpos]
            exact le_of_lt hlt
          linarith

theorem calculateExperienceScore_bounds (cy : ℤ) (resume : ParsedResume)
    (jd : ParsedJobDescription)
    (hyears : ∀ y ∈ resume.total_experience_years, 0 ≤ y) :
    0 ≤ calculateExperienceScore cy resume jd ∧
    calculateExperienceScore cy resume jd ≤ 1 := by
  obtain ⟨h10, h11⟩ := calculateYearsExperienceScore_bounds resume jd hyears
  obtain ⟨h20, h21⟩ := calculateExperienceRelevanceScore_bounds cy resume jd
  unfold calculateExperienceScore
  constructor
  · positivity
  · nlinarith

theorem calculateSoftSkillsScore_bounds (profile : SkillProfile)
    (jd : ParsedJobDescription) :
    0 ≤ calculateSoftSkillsScore profile jd ∧
    calculateSoftSkillsScore profile jd ≤ 1 := by
  simp only [calculateSoftSkillsScore]
  split
  · split <;> norm_num
  · rw [pyMin_eq_min, pyMin_eq_min]
    constructor
    · apply le_min (by norm_num)
      have hb : (0 : ℚ) ≤ ((extractSoftSkillsFromJd jd).filter
          (fun jdSkill => (profile.soft_skills.map (fun s => pyLower s.name)).any
            (fun resumeSkill => pyContains resumeSkill (pyLower jdSkill)))).length /
          (extractSoftSkillsFromJd jd).length := by positivity
      have hv : (0 : ℚ) ≤ min ((profile.soft_skills.length : ℚ) / 10) (2/10) :=
        le_min (by positivity) (by norm_num)
      linarith
    · exact min_le_left _ _

theorem calculateHardSkillsScore_bounds (profile : SkillProfile)
    (sm : SemanticMatchResult) (jd : ParsedJobDescription) :
    0 ≤ calculateHardSkillsScore profile sm jd ∧
    calculateHardSkillsScore profile sm jd ≤ 1 := by
  simp only [calculateHardSkillsScore]
  split
  · norm_num
  · rw [pyMax_eq_max, pyMin_eq_min]
    constructor
    · exact le_max_left _ _
    · exact max_le (by norm_num) (min_le_left _ _)

theorem calculateEducationLevelScore_bounds (el : List Education)
    (jd : ParsedJobDescription) :
    0 ≤ calculateEducationLevelScore el jd ∧
    calculateEducationLevelScore el jd ≤ 1 := by
  simp only [calculateEducationLevelScore]
  split
  · norm_num
  · split <;> norm_num

theorem calculateEducationRelevanceScore_bounds (el : List Education)
    (jd : ParsedJobDescription) :
    0 ≤ calculateEducationRelevanceScore el jd ∧
    calculateEducationRelevanceScore el jd ≤ 1 := by
  simp only [calculateEducationRelevanceScore]
  split
  · norm_num
  · rw [pyMin_eq_min]
    constructor
    · exact le_min (by norm_num) (div_nonneg (Nat.cast_nonneg _) (Nat.cast_nonneg _))
    · exact min_le_left _ _

theorem calculateEducationScore_bounds (resume : ParsedResume)
    (jd : ParsedJobDescription) :
    0 ≤ calculateEducationScore resume jd ∧
    calculateEducationScore resume jd ≤ 1 := by
  obtain ⟨h10, h11⟩ := calculateEducationLevelScore_bounds resume.education jd
  obtain ⟨h20, h21⟩ := calculateEducationRelevanceScore_bounds resume.education jd
  simp only [calculateEducationScore]
  split
  · norm_num
  · constructor
    · positivity
    · nlinarith

theorem confLevelShape (x : ℚ) :
    (if (8 : ℚ)/10 ≤ x then "high" else if (6 : ℚ)/10 ≤ x then "medium"
      else "low") = "low" ∨
    (if (8 : ℚ)/10 ≤ x then "high" else if (6 : ℚ)/10 ≤ x then "medium"
      else "low") = "medium" ∨
    (if (8 : ℚ)/10 ≤ x then "high" else if (6 : ℚ)/10 ≤ x then "medium"
      else "low") = "high" := by
  split_ifs <;> simp

theorem calculateConfidenceLevel_cases (resume : ParsedResume)
    (ds : DetailedScores) :
    calculateConfidenceLevel resume ds = "low" ∨
    calculateConfidenceLevel resume ds = "medium" ∨
    calculateConfidenceLevel resume ds = "high" := by
  unfold calculateConfidenceLevel
  exact confLevelShape _

/-- The range invariant claimed for every `FinalScore`: the overall score,
every component score and every sub-component score lie in [0, 100], and the
confidence level is one of low/medium/high. -/
def FinalScoreInRange (fs : FinalScore) : Prop :=
  (0 ≤ fs.overall_score ∧ fs.overall_score ≤ 100) ∧
  (0 ≤ fs.detailed_scores.hard_skills_score ∧
    fs.detailed_scores.hard_skills_score ≤ 100) ∧
  (0 ≤ fs.detailed_scores.soft_skills_score ∧
    fs.detailed_scores.soft_skills_score ≤ 100) ∧
  (0 ≤ fs.detailed_scores.experience_score ∧
    fs.detailed_scores.experience_score ≤ 100) ∧
  (0 ≤ fs.detailed_scores.education_score ∧
    fs.detailed_scores.education_score ≤ 100) ∧
  (0 ≤ fs.detailed_scores.semantic_match_score ∧
    fs.detailed_scores.semantic_match_score ≤ 100) ∧
  (0 ≤ fs.detailed_scores.technical_skills_score ∧
    fs.detailed_scores.technical_skills_score ≤ 100) ∧
  (0 ≤ fs.detailed_scores.domain_expertise_score ∧
    fs.detailed_scores.domain_expertise_score ≤ 100) ∧
  (0 ≤ fs.detailed_scores.tools_platforms_score ∧
    fs.detailed_scores.tools_platforms_score ≤ 100) ∧
  (0 ≤ fs.detailed_scores.years_experience_score ∧
    fs.detailed_scores.years_experience_score ≤ 100) ∧
  (0 ≤ fs.detailed_scores.experience_relevance_score ∧
    fs.detailed_scores.experience_relevance_score ≤ 100) ∧
  (0 ≤ fs.detailed_scores.education_level_score ∧
    fs.detailed_scores.education_level_score ≤ 100) ∧
  (0 ≤ fs.detailed_scores.education_relevance_score ∧
    fs.detailed_scores.education_relevance_score ≤ 100) ∧
  (fs.confidence_level = "low" ∨ fs.confidence_level = "medium" ∨
    fs.confidence_level = "high")

set_option maxHeartbeats 2000000 in
/-- C2 (amended): with the default weights, for every input whose semantic
match has `overall_similarity` in [0, 1] and whose resume has a nonnegative
total of experience years (when present), the produced `FinalScore` has all
claimed scores within [0, 100] and a confidence level among low, medium and
high. -/
theorem calculateComprehensiveScore_in_range (highT mediumT : ℚ) (cy : ℤ)
    (resume : ParsedResume) (profile : SkillProfile)
    (sm : SemanticMatchResult) (jd : ParsedJobDescription)
    (hsim0 : 0 ≤ sm.overall_similarity) (hsim1 : sm.overall_similarity ≤ 1)
    (hyears : ∀ y ∈ resume.total_experience_years, 0 ≤ y) :
    FinalScoreInRange
      (calculateComprehensiveScore {} highT mediumT cy resume profile sm jd) := by
  obtain ⟨hh0, hh1⟩ := calculateHardSkillsScore_bounds profile sm jd
  obtain ⟨hs0, hs1⟩ := calculateSoftSkillsScore_bounds profile jd
  obtain ⟨he0, he1⟩ := calculateExperienceScore_bounds cy resume jd hyears
  obtain ⟨hd0, hd1⟩ := calculateEducationScore_bounds resume jd
  obtain ⟨hy0, hy1⟩ := calculateYearsExperienceScore_bounds resume jd hyears
  obtain ⟨hr0, hr1⟩ := calculateExperienceRelevanceScore_bounds cy resume jd
  obtain ⟨hl0, hl1⟩ := calculateEducationLevelScore_bounds resume.education jd
  obtain ⟨hv0, hv1⟩ := calculateEducationRelevanceScore_bounds resume.education jd
  simp only [FinalScoreInRange, calculateComprehensiveScore,
    calculateDetailedScores, calculateSemanticScore]
  refine ⟨?_, ?_, ?_, ?_, ?_, ?_, ?_, ?_, ?_, ?_, ?_, ?_, ?_, ?_⟩
  · exact round1_bounds (by linarith) (by linarith)
  · exact round1_bounds (by linarith) (by linarith)
  · exact round1_bounds (by linarith) (by linarith)
  · exact round1_bounds (by linarith) (by linarith)
  · exact round1_bounds (by linarith) (by linarith)
  · exact round1_bounds (by linarith) (by linarith)
  · rw [pyMin_eq_min]
    exact round1_bounds (le_min (by positivity) (by norm_num)) (min_le_right _ _)
  · rw [pyMin_eq_min]
    exact round1_bounds (le_min (by positivity) (by norm_num)) (min_le_right _ _)
  · rw [pyMin_eq_min]
    exact round1_bounds (le_min (by positivity) (by norm_num)) (min_le_right _ _)
  · exact round1_bounds (by linarith) (by linarith)
  · exact round1_bounds (by linarith) (by linarith)
  · exact round1_bounds (by linarith) (by linarith)
  · exact round1_bounds (by linarith) (by linarith)
  · exact calculateConfidenceLevel_cases resume _

/-- An empty resume. -/
def wResume : ParsedResume := { contact_info := {} }

/-- An empty skill profile. -/
def wProfile : SkillProfile :=
  { technical_skills := [], soft_skills := [], domain_expertise := [],
    tools_platforms := [], certifications := [], skill_categories := [],
    total_skills_count := 0, skill_diversity_score := 0 }

/-- An all-zero semantic match result. -/
def wSm : SemanticMatchResult :=
  { overall_similarity := 0, skill_matches := [], missing_skills := [],
    additional_skills := [], category_similarities := [],
    embedding_similarity := 0, text_similarity := 0 }

/-- An empty job description. -/
def wJd : ParsedJobDescription := { title := "", company := "" }

/-- C2 witness: the amended claim evaluated at a concrete empty input. -/
theorem calculateComprehensiveScore_in_range_witness :
    FinalScoreInRange
      (calculateComprehensiveScore {} 80 60 2025 wResume wProfile wSm wJd) :=
  calculateComprehensiveScore_in_range 80 60 2025 wResume wProfile wSm wJd
    (by norm_num [wSm]) (by norm_num [wSm]) (by simp [wResume])

/-- A resume reporting a negative total of experience years. -/
def cexResume2 : ParsedResume :=
  { contact_info := {}, total_experience_years := some (-1) }

/-- A semantic match result whose overall similarity exceeds 1. -/
def cexSm2 : SemanticMatchResult :=
  { overall_similarity := 2, skill_matches := [], missing_skills := [],
    additional_skills := [], category_similarities := [],
    embedding_similarity := 0, text_similarity := 0 }

/-- C2 counterexample: on a `SemanticMatchResult` with overall similarity 2
and a resume with −1 total experience years — both accepted by the scoring
engine — the produced `FinalScore` has `semantic_match_score = 200` and
`years_experience_score = −25`, so the claimed [0,100] range fails. -/
theorem calculateComprehensiveScore_counterexample :
    (calculateComprehensiveScore {} 80 60 2025 cexResume2 wProfile cexSm2
      wJd).detailed_scores.semantic_match_score = 200 ∧
    (calculateComprehensiveScore {} 80 60 2025 cexResume2 wProfile cexSm2
      wJd).detailed_scores.years_experience_score = -25 ∧
    ¬ FinalScoreInRange
      (calculateComprehensiveScore {} 80 60 2025 cexResume2 wProfile cexSm2
        wJd) := by
  have h1 : (calculateComprehensiveScore {} 80 60 2025 cexResume2 wProfile
      cexSm2 wJd).detailed_scores.semantic_match_score = 200 := by
    simp only [calculateComprehensiveScore, calculateDetailedScores,
      calculateSemanticScore, cexSm2]
    norm_num [round1, pyRound]
  have h2 : (calculateComprehensiveScore {} 80 60 2025 cexResume2 wProfile
      cexSm2 wJd).detailed_scores.years_experience_score = -25 := by
    simp only [calculateComprehensiveScore, calculateDetailedScores,
      calculateYearsExperienceScore, cexResume2, wJd]
    norm_num [round1, pyRound]
  refine ⟨h1, h2, ?_⟩
  intro h
  have hb := h.2.2.2.2.2.1.2
  rw [h1] at hb
  norm_num at hb
